import Mathlib

/-!
Verification of the cannabis-data collection pipeline against its design
specification.  The Lean definitions below are a shallow embedding of the
Python sources:

* `src/processors/normalizer.py`  — `RecordNormalizer`
* `src/collectors/api_collector.py` — `APICollector`, `SODACollector`
* `src/collectors/geojson_collector.py` — `GeoJSONCollector`
* `src/scheduler/manager.py` — `run_collection_job`, `_flush_batch`
* `src/storage/models.py` — `RawRecord.compute_hash`

Python `dict`s coming from JSON are modelled as association lists of
`String × JVal`; Python `None` is `JVal.null`; Python floats are modelled
as rationals together with the special values `inf`, `-inf`, `nan`.
-/

namespace Cannabis

/-! ### String primitives

Python string methods are modelled on `List Char` so that every definition
reduces inside the kernel (`String.splitOn` and friends do not). -/

def toLowerL (cs : List Char) : List Char := cs.map Char.toLower

def toUpperL (cs : List Char) : List Char := cs.map Char.toUpper

def toLowerS (s : String) : String := String.mk (toLowerL s.toList)

def toUpperS (s : String) : String := String.mk (toUpperL s.toList)

/-- Python `str.strip()` (whitespace from both ends). -/
def trimL (cs : List Char) : List Char :=
  ((cs.dropWhile Char.isWhitespace).reverse.dropWhile Char.isWhitespace).reverse

def trimS (s : String) : String := String.mk (trimL s.toList)

/-- Python `str.split(sep)` for a one-character separator. -/
def splitOnCharL (sep : Char) (cs : List Char) : List (List Char) :=
  cs.foldr (fun c groups =>
    match groups with
    | g :: gs => if c = sep then [] :: g :: gs else (c :: g) :: gs
    | [] => [[c]]) [[]]

/-- Replace every occurrence of one character by another. -/
def replaceCharL (a b : Char) (cs : List Char) : List Char :=
  cs.map (fun c => if c = a then b else c)

/-- Numeric value of a list of decimal digits. -/
def digitsNat (ds : List Char) : Nat :=
  ds.foldl (fun acc c => acc * 10 + (c.toNat - 48)) 0

/-- A JSON-ish Python value.  `date` is only produced by the normalizer
(`datetime.date` objects); raw records contain the other constructors. -/
inductive JVal where
  | null
  | bool (b : Bool)
  | num (q : ℚ)
  | str (s : String)
  | arr (elems : List JVal)
  | obj (entries : List (String × JVal))
  | date (y m d : Nat)

/-- Python `v is None`. -/
def isNull : JVal → Bool
  | .null => true
  | _ => false

/-- A Python dict with string keys, as the collectors hand to the normalizer. -/
abbrev JDict := List (String × JVal)

/-- Python truthiness (`bool(v)`) for the values we model. -/
def truthy : JVal → Bool
  | .null => false
  | .bool b => b
  | .num q => q ≠ 0
  | .str s => s ≠ ""
  | .arr xs => ¬ xs.isEmpty
  | .obj xs => ¬ xs.isEmpty
  | .date _ _ _ => true

/-- `d.get(k)` (missing key gives Python `None`). -/
def dictGet (d : JDict) (k : String) : JVal :=
  match List.lookup k d with
  | some v => v
  | none => .null

/-- `k in d`. -/
def hasKey (d : JDict) (k : String) : Bool :=
  (List.lookup k d).isSome

/-- `d[k] = v`: replace the first binding of `k`, or append a new one. -/
def dictSet (d : JDict) (k : String) (v : JVal) : JDict :=
  match d with
  | [] => [(k, v)]
  | (k0, v0) :: rest => if k0 = k then (k, v) :: rest else (k0, v0) :: dictSet rest k v

/-- Python `a or b`. -/
def pyOr (a b : JVal) : JVal := if truthy a then a else b

/-- Exceptions distinguished by the model: `CollectionError` (raised
deliberately by collectors, carrying a message) versus ordinary Python
exceptions escaping by accident. -/
inductive PyErr where
  | typeError
  | attributeError
  | keyError
  | collectionError (msg : String)
deriving DecidableEq, Repr

/-- Is the exception a `CollectionError`? -/
def PyErr.isCollectionError : PyErr → Bool
  | .collectionError _ => true
  | _ => false

/-! ### `RecordNormalizer` helpers (normalizer.py) -/

/-- `RecordNormalizer._clean_value`: trim strings and map null-like tokens to
`None`; non-strings pass through unchanged. -/
def clean_value : JVal → JVal
  | .str s =>
      let t := trimS s
      if toLowerS t ∈ (["", "n/a", "na", "null", "none", "-", "unknown"] : List String)
      then .null else .str t
  | v => v

/-- Inner loop of `RecordNormalizer._nested_get`: walk one path component at a
time through nested dicts and integer-indexed lists. -/
def nestedGo : JVal → List String → JVal
  | cur, [] => cur
  | cur, k :: ks =>
      match cur with
      | .obj d => nestedGo (dictGet d k) ks
      | .arr xs =>
          if k.toList ≠ [] ∧ k.toList.all Char.isDigit then
            match xs[digitsNat k.toList]? with
            | some v => nestedGo v ks
            | none => .null
          else .null
      | _ => .null

/-- `RecordNormalizer._nested_get` on a raw record dict. -/
def nested_get (data : JDict) (key_path : String) : JVal :=
  if key_path = "" then .null
  else nestedGo (.obj data) ((splitOnCharL '.' key_path.toList).map String.mk)

/-- Python `str.title()` (ASCII approximation used on snake-case field names). -/
def pyTitle (s : String) : String :=
  String.mk (go false s.toList)
where
  go : Bool → List Char → List Char
    | _, [] => []
    | prevAlpha, c :: cs =>
        (if prevAlpha then c.toLower else c.toUpper) :: go c.isAlpha cs

/-- The alias table inside `RecordNormalizer._field_name_variations`. -/
def fieldAliases (std : String) : List String :=
  match std with
  | "name" => ["dba", "business_name", "tradename", "license_name",
               "dispensary_name", "facility_name", "applicant_name"]
  | "license_number" => ["license_no", "ubi", "license_id", "permit_number",
                         "lic_no", "license"]
  | "license_type" => ["type", "privilege", "category", "permit_type"]
  | "license_status" => ["status", "license_status"]
  | "address" => ["street", "street_address", "premise_address",
                  "physicaladdress", "physical_address"]
  | "city" => ["premise_city", "city_town", "physicalcity"]
  | "zip_code" => ["zip", "postal_code", "zipcode", "premise_zip", "physicalzip"]
  | "county" => ["borough", "parish"]
  | "latitude" => ["lat", "y", "ylat"]
  | "longitude" => ["lon", "lng", "long", "x", "xlong"]
  | "phone" => ["telephone", "phone_number", "contact_phone"]
  | "website" => ["url", "web", "web_address"]
  | "license_date" => ["issued", "issue_date", "issueddate",
                       "effective_date", "licenseissuedate"]
  | "expiry_date" => ["expires", "expiration_date", "expiration",
                      "expirationdate", "licenseexpirationdate"]
  | _ => []

/-- `RecordNormalizer._field_name_variations`. -/
def field_name_variations (std : String) : List String :=
  [std,
   String.mk (std.toList.filter (fun c => c ≠ '_')),
   String.mk (replaceCharL '_' ' ' std.toList),
   toUpperS std,
   pyTitle (String.mk (replaceCharL '_' ' ' std.toList))] ++ fieldAliases std

/-- `STANDARD_FIELDS` (a Python `set`; iteration order is irrelevant because
each field only reads/writes its own key). -/
def STANDARD_FIELDS : List String :=
  ["name", "license_number", "license_type", "license_status",
   "address", "city", "state", "zip_code", "county",
   "latitude", "longitude", "phone", "email", "website",
   "record_date", "license_date", "expiry_date",
   "owner_name", "entity_type", "category", "subcategory",
   "district", "period_year", "period_month", "amount"]

/-- Configuration snapshot handed to the normalizer (`_SourceProxy`). -/
structure DataSource where
  enabled : Bool := true
  state : JVal := .null
  category : JVal := .null
  subcategory : JVal := .null
  field_mapping : List (String × String) := []

/-- First stage of `normalize`: apply the explicit field mapping. -/
def applyFieldMapping (fm : List (String × String)) (raw : JDict) (n : JDict) : JDict :=
  fm.foldl (fun n p =>
    if p.2 = "" then n
    else
      let value := nested_get raw p.2
      if isNull value then n else dictSet n p.1 (clean_value value)) n

/-- Second stage of `normalize`: heuristic name matching for unmapped fields. -/
def applyDirectMatching (raw : JDict) (n : JDict) : JDict :=
  STANDARD_FIELDS.foldl (fun n std =>
    if hasKey n std then n
    else
      match (field_name_variations std).find? (fun v => hasKey raw v) with
      | some v => dictSet n std (clean_value (dictGet raw v))
      | none => n) n

/-- Third stage of `normalize`: fall back to the source state/category. -/
def applyDefaults (src : DataSource) (n : JDict) : JDict :=
  let n := if ¬ hasKey n "state" ∨ ¬ truthy (dictGet n "state")
           then dictSet n "state" src.state else n
  if ¬ hasKey n "category" ∨ ¬ truthy (dictGet n "category")
  then dictSet n "category" src.category else n

/-! ### Coordinate parsing (`RecordNormalizer._parse_coordinates`)

Python floats are modelled as rationals plus the IEEE specials that
`float(str)` can produce.  Rounding of decimal literals is exact here
(rationals) where CPython rounds to binary64; this does not affect the
range/zero validation logic being verified. -/

/-- Result of Python `float(...)`: a finite value (as an exact rational),
or one of the IEEE special values. -/
inductive PFloat where
  | rat (q : ℚ)
  | inf
  | ninf
  | nan
deriving DecidableEq, Repr

/-- Greedily consume a digit run in which single underscores may separate
digits (Python numeric literal rule); returns digits (underscores removed)
and the rest. -/
def takeDigits : List Char → List Char × List Char
  | c :: cs =>
      if c.isDigit then
        let (ds, rest) := takeMore cs
        (c :: ds, rest)
      else ([], c :: cs)
  | [] => ([], [])
where
  takeMore : List Char → List Char × List Char
    | c :: cs =>
        if c.isDigit then
          let (ds, rest) := takeMore cs
          (c :: ds, rest)
        else if c = '_' then
          match cs with
          | c2 :: cs2 =>
              if c2.isDigit then
                let (ds, rest) := takeMore cs2
                (c2 :: ds, rest)
              else ([], c :: cs)
          | [] => ([], [c])
        else ([], c :: cs)
    | [] => ([], [])

/-- Parse the decimal part of a Python float literal (already lowercased,
sign stripped): `digits [. digits] [e [sign] digits]`. -/
def parseDecimal (cs : List Char) : Option ℚ :=
  let (ip, r1) := takeDigits cs
  let (fp, r2) :=
    match r1 with
    | '.' :: cs2 =>
        let (fp, r) := takeDigits cs2
        (some fp, r)
    | _ => (none, r1)
  if ip = [] ∧ (fp.getD []) = [] then none
  else
    let fl := (fp.getD []).length
    let numer : Nat := digitsNat ip * 10 ^ fl + digitsNat (fp.getD [])
    let denom : Nat := 10 ^ fl
    match r2 with
    | 'e' :: cs3 =>
        let (eneg, cs4) :=
          match cs3 with
          | '+' :: t => (false, t)
          | '-' :: t => (true, t)
          | t => (false, t)
        let (ed, r3) := takeDigits cs4
        if ed = [] ∨ r3 ≠ [] then none
        else
          let e := digitsNat ed
          some (if eneg then mkRat numer (denom * 10 ^ e)
                else mkRat (numer * 10 ^ e) denom)
    | [] => some (mkRat numer denom)
    | _ => none

/-- Python `float(s)` on a string: strip whitespace, optional sign, then
either an `inf`/`infinity`/`nan` keyword (case-insensitive) or a decimal
literal.  `none` models a raised `ValueError`. -/
def pyStrToFloat (s : String) : Option PFloat :=
  let t := toLowerL (trimL s.toList)
  let (neg, rest) :=
    match t with
    | '+' :: cs => (false, cs)
    | '-' :: cs => (true, cs)
    | cs => (false, cs)
  if rest = "inf".toList ∨ rest = "infinity".toList then
    some (if neg then .ninf else .inf)
  else if rest = "nan".toList then some .nan
  else
    match parseDecimal rest with
    | some q => some (.rat (if neg then -q else q))
    | none => none

/-- `float(lat) if lat is not None and lat != "" else None`, with `.error`
modelling a raised `ValueError`/`TypeError`. -/
def convCoord : JVal → Except Unit (Option PFloat)
  | .null => .ok none
  | .str s => if s = "" then .ok none else
      match pyStrToFloat s with
      | some f => .ok (some f)
      | none => .error ()
  | .num q => .ok (some (.rat q))
  | .bool b => .ok (some (.rat (if b then 1 else 0)))
  | .arr _ => .error ()
  | .obj _ => .error ()
  | .date _ _ _ => .error ()

/-- `-limit <= f <= limit` on a Python float (false for `inf`/`nan`). -/
def pfInRange (limit : ℚ) : PFloat → Bool
  | .rat q => (-limit ≤ q ∧ q ≤ limit : Bool)
  | _ => false

/-- The nested-location probe: first of `location`/`geolocation`/
`coordinates`/`point` whose value is a dict fills missing lat/lon. -/
def probeLoc (raw : JDict) (lat lon : JVal) : JVal × JVal :=
  match (["location", "geolocation", "coordinates", "point"].find?
      (fun k => match List.lookup k raw with
                | some (.obj _) => true
                | _ => false)) with
  | some k =>
      match List.lookup k raw with
      | some (.obj loc) =>
          (if isNull lat then pyOr (dictGet loc "latitude") (dictGet loc "lat") else lat,
           if isNull lon then
             pyOr (dictGet loc "longitude") (pyOr (dictGet loc "lon") (dictGet loc "lng"))
           else lon)
      | _ => (lat, lon)
  | none => (lat, lon)

/-- The Socrata `human_address` fallback: if latitude is still `None` and
`location` maps to a dict, take both coordinates from it. -/
def humanAddrFallback (raw : JDict) (lat lon : JVal) : JVal × JVal :=
  if isNull lat ∧ hasKey raw "location" then
    match dictGet raw "location" with
    | .obj loc => (dictGet loc "latitude", dictGet loc "longitude")
    | _ => (lat, lon)
  else (lat, lon)

/-- Write-back value for a validated coordinate. -/
def coordVal : Option PFloat → JVal
  | some (.rat q) => .num q
  | _ => .null

/-- `if f is not None and not (-limit <= f <= limit): f = None`. -/
def rangeFilter (limit : ℚ) : Option PFloat → Option PFloat
  | some f => if pfInRange limit f then some f else none
  | none => none

/-- `lat_f == 0.0 and lon_f == 0.0` (null island check). -/
def bothZeroCheck : Option PFloat → Option PFloat → Bool
  | some (.rat ql), some (.rat qo) => ql = 0 ∧ qo = 0
  | _, _ => false

/-- `RecordNormalizer._parse_coordinates`. -/
def parse_coordinates (n : JDict) (raw : JDict) : JDict :=
  let lat0 := dictGet n "latitude"
  let lon0 := dictGet n "longitude"
  let (lat1, lon1) := probeLoc raw lat0 lon0
  let (lat2, lon2) := humanAddrFallback raw lat1 lon1
  match convCoord lat2 with
  | .error _ => dictSet (dictSet n "latitude" .null) "longitude" .null
  | .ok latF =>
    match convCoord lon2 with
    | .error _ => dictSet (dictSet n "latitude" .null) "longitude" .null
    | .ok lonF =>
        let latF := rangeFilter 90 latF
        let lonF := rangeFilter 180 lonF
        let bothZero := bothZeroCheck latF lonF
        let (latF, lonF) := if bothZero then (none, none) else (latF, lonF)
        dictSet (dictSet n "latitude" (coordVal latF)) "longitude" (coordVal lonF)

/-! ### Date parsing (`RecordNormalizer._parse_date_string`)

`datetime.strptime` is modelled directive-by-directive with the exact
alternation order of CPython's `_strptime.TimeRE` patterns, including
regex backtracking (the candidate lists are in priority order, and the
engine takes the first full-pattern match, then separately requires that
the whole input was consumed). -/

/-- A parsed calendar date. -/
structure CalDate where
  y : Nat
  m : Nat
  d : Nat
deriving DecidableEq, Repr

/-- strptime's intermediate state (defaults: 1900-01-01). -/
structure PartialD where
  y : Nat := 1900
  m : Nat := 1
  d : Nat := 1
deriving DecidableEq, Repr

/-- One directive or literal of a strptime format string. -/
inductive DateTok where
  | yr4
  | yr2
  | mon
  | dayD
  | monAbbr
  | monFull
  | lit (c : Char)
  | ws

def digitN (c : Char) : Nat := c.toNat - 48

/-- `%d` pattern `3[01]|[12]\d|0[1-9]|[1-9]`, candidates in priority order. -/
def matchDay (cs : List Char) : List (Nat × List Char) :=
  (match cs with
   | '3' :: c :: rest => if c = '0' ∨ c = '1' then [(30 + digitN c, rest)] else []
   | _ => []) ++
  (match cs with
   | c1 :: c2 :: rest =>
      if (c1 = '1' ∨ c1 = '2') ∧ c2.isDigit then [(digitN c1 * 10 + digitN c2, rest)] else []
   | _ => []) ++
  (match cs with
   | '0' :: c :: rest => if '1' ≤ c ∧ c ≤ '9' then [(digitN c, rest)] else []
   | _ => []) ++
  (match cs with
   | c :: rest => if '1' ≤ c ∧ c ≤ '9' then [(digitN c, rest)] else []
   | _ => [])

/-- `%m` pattern `1[0-2]|0[1-9]|[1-9]`, candidates in priority order. -/
def matchMonth (cs : List Char) : List (Nat × List Char) :=
  (match cs with
   | '1' :: c :: rest => if c = '0' ∨ c = '1' ∨ c = '2' then [(10 + digitN c, rest)] else []
   | _ => []) ++
  (match cs with
   | '0' :: c :: rest => if '1' ≤ c ∧ c ≤ '9' then [(digitN c, rest)] else []
   | _ => []) ++
  (match cs with
   | c :: rest => if '1' ≤ c ∧ c ≤ '9' then [(digitN c, rest)] else []
   | _ => [])

/-- `%Y` pattern: exactly four digits. -/
def matchYear4 (cs : List Char) : List (Nat × List Char) :=
  match cs with
  | c1 :: c2 :: c3 :: c4 :: rest =>
      if c1.isDigit ∧ c2.isDigit ∧ c3.isDigit ∧ c4.isDigit then
        [(digitN c1 * 1000 + digitN c2 * 100 + digitN c3 * 10 + digitN c4, rest)]
      else []
  | _ => []

/-- `%y` pattern: exactly two digits, pivoted at 68 as in `_strptime`. -/
def matchYear2 (cs : List Char) : List (Nat × List Char) :=
  match cs with
  | c1 :: c2 :: rest =>
      if c1.isDigit ∧ c2.isDigit then
        let v := digitN c1 * 10 + digitN c2
        [(if v ≤ 68 then 2000 + v else 1900 + v, rest)]
      else []
  | _ => []

def monthAbbrevs : List (String × Nat) :=
  [("jan", 1), ("feb", 2), ("mar", 3), ("apr", 4), ("may", 5), ("jun", 6),
   ("jul", 7), ("aug", 8), ("sep", 9), ("oct", 10), ("nov", 11), ("dec", 12)]

/-- Full month names, longest first as `TimeRE.__seqToRE` sorts them. -/
def monthNames : List (String × Nat) :=
  [("september", 9), ("february", 2), ("november", 11), ("december", 12),
   ("january", 1), ("october", 10), ("august", 8), ("march", 3),
   ("april", 4), ("june", 6), ("july", 7), ("may", 5)]

/-- Case-insensitive name alternation (for `%b`/`%B`). -/
def matchNames (names : List (String × Nat)) (cs : List Char) : List (Nat × List Char) :=
  names.foldr (fun (p : String × Nat) acc =>
    let nm := p.1.toList
    if (cs.take nm.length).map Char.toLower = nm then (p.2, cs.drop nm.length) :: acc
    else acc) []

/-- `\s+`: one-or-more whitespace, greedy (longest candidate first). -/
def matchWs (cs : List Char) : List (Unit × List Char) :=
  let k := (cs.takeWhile (fun c => c.isWhitespace)).length
  (List.range k).map (fun j => ((), cs.drop (k - j)))

/-- Match one directive, producing candidate (state, rest) pairs in regex
priority order. -/
def applyTok : DateTok → PartialD → List Char → List (PartialD × List Char)
  | .yr4, pd, cs => (matchYear4 cs).map (fun (v, r) => ({ pd with y := v }, r))
  | .yr2, pd, cs => (matchYear2 cs).map (fun (v, r) => ({ pd with y := v }, r))
  | .mon, pd, cs => (matchMonth cs).map (fun (v, r) => ({ pd with m := v }, r))
  | .dayD, pd, cs => (matchDay cs).map (fun (v, r) => ({ pd with d := v }, r))
  | .monAbbr, pd, cs => (matchNames monthAbbrevs cs).map (fun (v, r) => ({ pd with m := v }, r))
  | .monFull, pd, cs => (matchNames monthNames cs).map (fun (v, r) => ({ pd with m := v }, r))
  | .lit c, pd, cs =>
      match cs with
      | c0 :: rest => if c0 = c then [(pd, rest)] else []
      | [] => []
  | .ws, pd, cs => (matchWs cs).map (fun (_, r) => (pd, r))

/-- Match a whole format with cross-directive backtracking; the result list
is in regex priority order. -/
def matchFmt : List DateTok → PartialD → List Char → List (PartialD × List Char)
  | [], pd, cs => [(pd, cs)]
  | t :: ts, pd, cs => (applyTok t pd cs).flatMap (fun pr => matchFmt ts pr.1 pr.2)

def isLeap (y : Nat) : Bool := y % 4 = 0 ∧ (y % 100 ≠ 0 ∨ y % 400 = 0)

def daysInMonth (y m : Nat) : Nat :=
  if m = 2 then (if isLeap y then 29 else 28)
  else if m ∈ ([4, 6, 9, 11] : List Nat) then 30
  else 31

/-- `datetime`'s constructor validation. -/
def validDate (pd : PartialD) : Bool :=
  1 ≤ pd.y ∧ pd.y ≤ 9999 ∧ 1 ≤ pd.m ∧ pd.m ≤ 12 ∧ 1 ≤ pd.d ∧ pd.d ≤ daysInMonth pd.y pd.m

/-- `datetime.strptime(s, fmt).date()`: take the regex engine's first match,
require full consumption, then validate the calendar date.  `none` models a
raised `ValueError`. -/
def strptimeDate (toks : List DateTok) (cs : List Char) : Option CalDate :=
  match matchFmt toks {} cs with
  | [] => none
  | (pd, rest) :: _ =>
      if rest ≠ [] then none
      else if validDate pd then some ⟨pd.y, pd.m, pd.d⟩ else none

/-- The nine formats tried by `_parse_date_string`, in source order. -/
def dateFormats : List (List DateTok) :=
  [[.yr4, .lit '-', .mon, .lit '-', .dayD],          -- %Y-%m-%d
   [.mon, .lit '/', .dayD, .lit '/', .yr4],          -- %m/%d/%Y
   [.mon, .lit '-', .dayD, .lit '-', .yr4],          -- %m-%d-%Y
   [.dayD, .lit '/', .mon, .lit '/', .yr4],          -- %d/%m/%Y
   [.dayD, .lit '-', .mon, .lit '-', .yr4],          -- %d-%m-%Y
   [.yr4, .lit '/', .mon, .lit '/', .dayD],          -- %Y/%m/%d
   [.mon, .lit '/', .dayD, .lit '/', .yr2],          -- %m/%d/%y
   [.dayD, .lit '-', .monAbbr, .lit '-', .yr4],      -- %d-%b-%Y
   [.monFull, .ws, .dayD, .lit ',', .ws, .yr4]]      -- %B %d, %Y

/-- `RecordNormalizer._parse_date_string`. -/
def parse_date_string (s : String) : Option CalDate :=
  if s = "" ∨ toLowerS s ∈ (["n/a", "none", "null"] : List String) then none
  else
    let t := trimL (((splitOnCharL ' ' ((splitOnCharL 'T' s.toList).headD [])).headD []))
    dateFormats.foldl (fun acc f =>
      match acc with
      | some d => some d
      | none => strptimeDate f t) none

/-! ### Remaining normalization stages -/

/-- `repr`-style rendering used inside containers by Python `str` (single
quotes written via `\x27`); an approximation, but no container rendering can
parse as a date in either world. -/
def pyStrQ : JVal → String
  | .str s => "\x27" ++ s ++ "\x27"
  | .null => "None"
  | .bool b => if b then "True" else "False"
  | .num q => if q.den = 1 then toString q.num else toString q.num ++ "/" ++ toString q.den
  | .arr xs => "[" ++ String.intercalate ", " (xs.attach.map (fun x => pyStrQ x.1)) ++ "]"
  | .obj es =>
      "\x7b" ++ String.intercalate ", "
        (es.attach.map (fun p => "\x27" ++ p.1.1 ++ "\x27: " ++ pyStrQ p.1.2)) ++ "\x7d"
  | .date y m d => toString y ++ "-" ++ toString m ++ "-" ++ toString d
termination_by v => sizeOf v
decreasing_by
  · have h := List.sizeOf_lt_of_mem x.2
    simp only [JVal.arr.sizeOf_spec]
    omega
  · have h := List.sizeOf_lt_of_mem p.2
    have h2 : sizeOf p.1.2 < sizeOf p.1 := by
      obtain ⟨⟨a, b⟩, hm⟩ := p
      simp
    simp only [JVal.obj.sizeOf_spec]
    omega

/-- Python `str(v)`.  Exact for strings/booleans/None/integers. -/
def pyStr : JVal → String
  | .str s => s
  | .null => "None"
  | .bool b => if b then "True" else "False"
  | .num q => if q.den = 1 then toString q.num else toString q.num ++ "/" ++ toString q.den
  | .arr xs => "[" ++ String.intercalate ", " (xs.map pyStrQ) ++ "]"
  | .obj es =>
      "\x7b" ++ String.intercalate ", "
        (es.map (fun p => "\x27" ++ p.1 ++ "\x27: " ++ pyStrQ p.2)) ++ "\x7d"
  | .date y m d => toString y ++ "-" ++ toString m ++ "-" ++ toString d

/-- Is the value a `datetime.date`/`datetime.datetime` instance? -/
def isDateVal : JVal → Bool
  | .date _ _ _ => true
  | _ => false

/-- One field of `RecordNormalizer._parse_dates`. -/
def parseDateField (n : JDict) (f : String) : JDict :=
  let val := dictGet n f
  if truthy val ∧ ¬ isDateVal val then
    dictSet n f (match parse_date_string (pyStr val) with
                 | some d => .date d.y d.m d.d
                 | none => .null)
  else n

/-- `RecordNormalizer._parse_dates`. -/
def parse_dates (n : JDict) : JDict :=
  (["record_date", "license_date", "expiry_date"] : List String).foldl parseDateField n

/-- `RecordNormalizer._clean_phone`. -/
def clean_phone (n : JDict) : JDict :=
  let phone := dictGet n "phone"
  if truthy phone then
    let digits := (pyStr phone).toList.filter Char.isDigit
    if digits.length = 10 then
      dictSet n "phone"
        (.str ("(" ++ String.mk (digits.take 3) ++ ") " ++
               String.mk ((digits.drop 3).take 3) ++ "-" ++ String.mk (digits.drop 6)))
    else if digits.length = 11 ∧ digits.headD ' ' = '1' then
      let ds := digits.tail
      dictSet n "phone"
        (.str ("(" ++ String.mk (ds.take 3) ++ ") " ++
               String.mk ((ds.drop 3).take 3) ++ "-" ++ String.mk (ds.drop 6)))
    else n
  else n

/-- The 50-states-plus-DC lookup of `RecordNormalizer._standardize_state`. -/
def state_map : List (String × String) :=
  [("alaska", "AK"), ("arizona", "AZ"), ("arkansas", "AR"),
   ("california", "CA"), ("colorado", "CO"), ("connecticut", "CT"),
   ("delaware", "DE"), ("florida", "FL"), ("georgia", "GA"),
   ("hawaii", "HI"), ("idaho", "ID"), ("illinois", "IL"),
   ("indiana", "IN"), ("iowa", "IA"), ("kansas", "KS"),
   ("kentucky", "KY"), ("louisiana", "LA"), ("maine", "ME"),
   ("maryland", "MD"), ("massachusetts", "MA"), ("michigan", "MI"),
   ("minnesota", "MN"), ("mississippi", "MS"), ("missouri", "MO"),
   ("montana", "MT"), ("nebraska", "NE"), ("nevada", "NV"),
   ("new hampshire", "NH"), ("new jersey", "NJ"), ("new mexico", "NM"),
   ("new york", "NY"), ("north carolina", "NC"), ("north dakota", "ND"),
   ("ohio", "OH"), ("oklahoma", "OK"), ("oregon", "OR"),
   ("pennsylvania", "PA"), ("rhode island", "RI"), ("south carolina", "SC"),
   ("south dakota", "SD"), ("tennessee", "TN"), ("texas", "TX"),
   ("utah", "UT"), ("vermont", "VT"), ("virginia", "VA"),
   ("washington", "WA"), ("west virginia", "WV"), ("wisconsin", "WI"),
   ("wyoming", "WY"), ("district of columbia", "DC")]

/-- `RecordNormalizer._standardize_state`.  `len(state)` raises `TypeError`
on numbers/booleans/dates, and `.lower()`/`.upper()` raise `AttributeError`
on lists/dicts; those exceptions escape the normalizer. -/
def standardize_state (n : JDict) : Except PyErr JDict :=
  match dictGet n "state" with
  | .str s =>
      if s ≠ "" then
        if s.toList.length > 2 then
          match List.lookup (trimS (toLowerS s)) state_map with
          | some ab => .ok (dictSet n "state" (.str ab))
          | none => .ok n
        else .ok (dictSet n "state" (.str (trimS (toUpperS s))))
      else .ok n
  | .arr xs => if ¬ xs.isEmpty then .error .attributeError else .ok n
  | .obj es => if ¬ es.isEmpty then .error .attributeError else .ok n
  | v => if truthy v then .error .typeError else .ok n

/-- `RecordNormalizer._clean_zip`. -/
def clean_zip (n : JDict) : JDict :=
  let z := dictGet n "zip_code"
  if truthy z then
    let zstr := trimS (pyStr z)
    let digits := zstr.toList.filter Char.isDigit
    if digits.length ≥ 5 then dictSet n "zip_code" (.str (String.mk (digits.take 5)))
    else if digits ≠ [] then
      dictSet n "zip_code" (.str (String.mk (List.replicate (5 - digits.length) '0' ++ digits)))
    else n
  else n

/-- `RecordNormalizer._clean_website`. -/
def clean_website (n : JDict) : JDict :=
  match dictGet n "website" with
  | .str s =>
      if s ≠ "" then
        let w := trimL s.toList
        if w ≠ [] ∧ ¬ ("http://".toList.isPrefixOf w) ∧ ¬ ("https://".toList.isPrefixOf w) then
          dictSet n "website" (.str ("https://" ++ String.mk w))
        else n
      else n
  | _ => n

/-- `RecordNormalizer.normalize`: the full pipeline.  `.error` models an
exception escaping `normalize` (possible only in `_standardize_state`). -/
def normalize (src : DataSource) (raw : JDict) : Except PyErr JDict :=
  let n := applyFieldMapping src.field_mapping raw []
  let n := applyDirectMatching raw n
  let n := applyDefaults src n
  let n := parse_coordinates n raw
  let n := parse_dates n
  let n := clean_phone n
  match standardize_state n with
  | .error e => .error e
  | .ok n => .ok (clean_website (clean_zip n))

/-! ### `APICollector` (api_collector.py) -/

/-- `APICollector._nested_get` ("dot notation", dicts only). -/
def apiNestedGo : JVal → List String → JVal
  | cur, [] => cur
  | cur, k :: ks =>
      match cur with
      | .obj d => apiNestedGo (dictGet d k) ks
      | _ => .null

/-- `APICollector._nested_get`. -/
def api_nested_get (data : JVal) (key_path : String) : JVal :=
  apiNestedGo data ((splitOnCharL '.' key_path.toList).map String.mk)

/-- The Elasticsearch unwrap `[h.get("_source", h) for h in hits]`;
`h.get` on a non-dict raises `AttributeError`. -/
def unwrapHits : List JVal → Except PyErr (List JVal)
  | [] => .ok []
  | h :: hs =>
      match h with
      | .obj hd =>
          match unwrapHits hs with
          | .error e => .error e
          | .ok rest =>
              .ok ((match List.lookup "_source" hd with
                    | some s => s
                    | none => .obj hd) :: rest)
      | _ => .error .attributeError

/-- `APICollector._extract_records`: a list is used directly; a dict is
probed for common wrapper keys, then the Elasticsearch `hits.hits` shape;
everything else yields the empty list (not an error). -/
def extract_records : JVal → Except PyErr (List JVal)
  | .arr xs => .ok xs
  | .obj d =>
      match ((["data", "results", "records", "items", "features", "hits"] : List String).findSome?
          (fun k => match List.lookup k d with
                    | some (.arr xs) => some xs
                    | _ => none)) with
      | some xs => .ok xs
      | none =>
          match List.lookup "hits" d with
          | some (.obj h) =>
              match (match List.lookup "hits" h with | some v => v | none => .arr []) with
              | .arr hs => unwrapHits hs
              | _ => .ok []
          | _ => .ok []
  | _ => .ok []

/-- `collect` with pagination type `none`: one request, records extracted
from the (already JSON-parsed) body. -/
def api_collect_none (body : JVal) : Except PyErr (List JVal) :=
  extract_records body

/-- `APICollector._fetch_offset_paginated` run against a source that holds
`all` and answers each request at offset `k` with the next
`min(page_size, remaining)` records (as a JSON array, from which
`_extract_records` is the identity).  Returns (requests issued, records
yielded). -/
def offsetLoop (all : List JVal) (page_size : Nat) (offset : Nat) : Nat × List JVal :=
  if ((all.drop offset).take page_size).isEmpty then (1, [])
  else if ((all.drop offset).take page_size).length < page_size then
    (1, (all.drop offset).take page_size)
  else
    let pr := offsetLoop all page_size (offset + page_size)
    (pr.1 + 1, (all.drop offset).take page_size ++ pr.2)
termination_by all.length - offset
decreasing_by
  rename_i h1 h2
  simp only [List.isEmpty_eq_true, List.take_eq_nil_iff, List.length_take,
    List.length_drop] at h1 h2
  push_neg at h1
  obtain ⟨hp, hd⟩ := h1
  have hlt : ¬ all.length ≤ offset := fun hle => hd (List.drop_eq_nil_iff.mpr hle)
  omega

def fetch_offset_paginated (all : List JVal) (page_size : Nat) : Nat × List JVal :=
  offsetLoop all page_size 0

/-- `APICollector._fetch_page_paginated` against the same server model
(request number `idx` serves the records from `idx * page_size` on); the
stopping rule is identical to the offset variant. -/
def pageLoop (all : List JVal) (page_size : Nat) (idx : Nat) : Nat × List JVal :=
  if ((all.drop (idx * page_size)).take page_size).isEmpty then (1, [])
  else if ((all.drop (idx * page_size)).take page_size).length < page_size then
    (1, (all.drop (idx * page_size)).take page_size)
  else
    let pr := pageLoop all page_size (idx + 1)
    (pr.1 + 1, (all.drop (idx * page_size)).take page_size ++ pr.2)
termination_by all.length - idx * page_size
decreasing_by
  rename_i h1 h2
  simp only [List.isEmpty_eq_true, List.take_eq_nil_iff, List.length_take,
    List.length_drop] at h1 h2
  push_neg at h1
  obtain ⟨hp, hd⟩ := h1
  have hlt : ¬ all.length ≤ idx * page_size :=
    fun hle => hd (List.drop_eq_nil_iff.mpr hle)
  have hmul : idx * page_size + page_size = (idx + 1) * page_size := by ring
  omega

def fetch_page_paginated (all : List JVal) (page_size : Nat) : Nat × List JVal :=
  pageLoop all page_size 0

/-- `APICollector._fetch_cursor_paginated` over the sequence of response
bodies the upstream returns: each iteration extracts the records, yields
them, reads the next cursor from `cursor_field`, and stops when the cursor
is falsy or the page was empty.  (The model also stops if the response
list is exhausted; claims only quantify over sequences that contain a
stopping response.)  Returns (requests issued, records yielded). -/
def cursorLoop (cursor_field : String) : List JVal → Except PyErr (Nat × List JVal)
  | [] => .ok (0, [])
  | body :: rest =>
      match extract_records body with
      | .error e => .error e
      | .ok records =>
          let cursor := api_nested_get body cursor_field
          if ¬ truthy cursor ∨ records.isEmpty then .ok (1, records)
          else
            match cursorLoop cursor_field rest with
            | .error e => .error e
            | .ok (n, ys) => .ok (n + 1, records ++ ys)

/-! ### `GeoJSONCollector` (geojson_collector.py) -/

/-- `GeoJSONCollector._polygon_centroid`: mean of the first ring, with
`IndexError`/`TypeError`/`ZeroDivisionError` caught (returning `None`). -/
def polygon_centroid (coordinates : JVal) (geo_type : String) : Option (ℚ × ℚ) :=
  let ring? : Option JVal :=
    if geo_type = "Polygon" then
      match coordinates with
      | .arr (r :: _) => some r
      | _ => none
    else if geo_type = "MultiPolygon" then
      match coordinates with
      | .arr (r :: _) =>
          (match r with
           | .arr (r2 :: _) => some r2
           | _ => none)
      | _ => none
    else none
  match ring? with
  | none => none
  | some ring =>
      match ring with
      | .arr pts =>
          if pts.isEmpty then none
          else
            match pointsOf pts with
            | none => none
            | some ps =>
                some (mkRat (ps.map Prod.fst).sum.num (ps.length * (ps.map Prod.fst).sum.den),
                      mkRat (ps.map Prod.snd).sum.num (ps.length * (ps.map Prod.snd).sum.den))
      | _ => none
where
  /-- `p[0]`/`p[1]` of every vertex; any non-numeric entry or short vertex
  raises inside the `try` and gives `None`. -/
  pointsOf : List JVal → Option (List (ℚ × ℚ))
    | [] => some []
    | p :: ps =>
        match p with
        | .arr (x :: y :: _) =>
            (match numOf x, numOf y, pointsOf ps with
             | some qx, some qy, some rest => some ((qx, qy) :: rest)
             | _, _, _ => none)
        | _ => none
  numOf : JVal → Option ℚ
    | .num q => some q
    | .bool b => some (if b then 1 else 0)
    | _ => none

/-- `GeoJSONCollector._flatten_feature`.  `None` for non-dicts and empty
results; `.error` models uncaught exceptions on pathological shapes
(`record.update` of a truthy non-dict, `geometry.get` on a non-dict, `len`
of a number). -/
def flatten_feature (feature : JVal) : Except PyErr (Option JDict) :=
  match feature with
  | .obj f =>
      match pyOr (dictGet f "properties") (.obj []) with
      | .obj ps =>
          let record : JDict := ps.foldl (fun r p => dictSet r p.1 p.2) []
          match pyOr (dictGet f "geometry") (.obj []) with
          | .obj g =>
              let geo_type := dictGet g "type"
              let coords := dictGet g "coordinates"
              match pointBranch record geo_type coords with
              | .error e => .error e
              | .ok record => .ok (if record.isEmpty then none else some record)
          | _ => .error .attributeError
      | _ => .error .typeError
  | _ => .ok none
where
  /-- The `if geo_type == "Point" ... elif ... elif geo_type:` chain. -/
  pointBranch (record : JDict) (geo_type coords : JVal) : Except PyErr JDict :=
    match pointGuard coords with
    | .error e => if isPoint geo_type then .error e else notPoint record geo_type coords
    | .ok true =>
        if isPoint geo_type then
          match coords with
          | .arr (x :: y :: more) =>
              let record := dictSet record "longitude" x
              let record := dictSet record "latitude" y
              .ok (match more with
                   | z :: _ => dictSet record "elevation" z
                   | [] => record)
          | .str s =>
              let cs := s.toList
              let record := dictSet record "longitude" (.str (String.mk (cs.take 1)))
              let record := dictSet record "latitude" (.str (String.mk ((cs.drop 1).take 1)))
              .ok (if cs.length ≥ 3 then
                     dictSet record "elevation" (.str (String.mk ((cs.drop 2).take 1)))
                   else record)
          | _ => .error .keyError
        else notPoint record geo_type coords
    | .ok false => notPoint record geo_type coords
  isPoint : JVal → Bool
    | .str s => s = "Point"
    | _ => false
  /-- `coords and len(coords) >= 2` (short-circuit; `len` can raise). -/
  pointGuard (coords : JVal) : Except PyErr Bool :=
    if ¬ truthy coords then .ok false
    else
      match coords with
      | .arr xs => .ok (xs.length ≥ 2)
      | .str s => .ok (s.toList.length ≥ 2)
      | .obj es => .ok (es.length ≥ 2)
      | _ => .error .typeError
  notPoint (record : JDict) (geo_type coords : JVal) : Except PyErr JDict :=
    match geo_type with
    | .str s =>
        if (s = "Polygon" ∨ s = "MultiPolygon") ∧ truthy coords then
          let record :=
            match polygon_centroid coords s with
            | some (lon, lat) =>
                dictSet (dictSet record "latitude" (.num lat)) "longitude" (.num lon)
            | none => record
          .ok (dictSet record "geometry_type" (.str s))
        else if s ≠ "" then .ok (dictSet record "geometry_type" (.str s))
        else .ok record
    | g => if truthy g then .ok (dictSet record "geometry_type" g) else .ok record

/-- `GeoJSONCollector.collect` on an already-parsed (non-Overpass) response
body: dispatch on the top-level `type`; anything that is not a
`FeatureCollection` or `Feature` raises `CollectionError`. -/
def geojson_collect (body : JVal) : Except PyErr (List JDict) :=
  match body with
  | .obj g =>
      let t := match List.lookup "type" g with
               | some v => v
               | none => .str ""
      match t with
      | .str "FeatureCollection" =>
          (match (match List.lookup "features" g with
                  | some v => v
                  | none => .arr []) with
           | .arr fs => collectFeatures fs
           | .str _ => .ok []
           | .obj _ => .ok []
           | _ => .error .typeError)
      | .str "Feature" =>
          (match flatten_feature (.obj g) with
           | .error e => .error e
           | .ok (some r) => .ok [r]
           | .ok none => .ok [])
      | other =>
          .error (.collectionError
            ("Unexpected GeoJSON type: " ++ pyStr other ++
             ". Expected FeatureCollection or Feature."))
  | _ => .error .attributeError
where
  collectFeatures : List JVal → Except PyErr (List JDict)
    | [] => .ok []
    | f :: fs =>
        match flatten_feature f with
        | .error e => .error e
        | .ok r =>
            match collectFeatures fs with
            | .error e => .error e
            | .ok rest => .ok (match r with
                               | some rec0 => rec0 :: rest
                               | none => rest)

/-! ### `RawRecord.compute_hash` (models.py)

`json.dumps(record_data, sort_keys=True, default=str)` followed by
SHA-256.  The serializer sorts each object's items by key (ties on equal
keys cannot occur in a Python dict); SHA-256 is implemented in full over
the UTF-8 bytes. -/

def hexDigitChar (n : Nat) : Char :=
  if n < 10 then Char.ofNat (48 + n) else Char.ofNat (87 + n)

/-- `\uXXXX` payload. -/
def u4 (n : Nat) : List Char :=
  [hexDigitChar (n / 4096 % 16), hexDigitChar (n / 256 % 16),
   hexDigitChar (n / 16 % 16), hexDigitChar (n % 16)]

/-- JSON string escaping with `ensure_ascii=True` (the `json.dumps`
default): everything outside `0x20`-`0x7e` becomes a `\u` escape, with
surrogate pairs above the BMP. -/
def escChar (c : Char) : List Char :=
  if c = '"' then ['\\', '"']
  else if c = '\\' then ['\\', '\\']
  else if c = '\n' then ['\\', 'n']
  else if c = '\t' then ['\\', 't']
  else if c = '\r' then ['\\', 'r']
  else if c.toNat = 8 then ['\\', 'b']
  else if c.toNat = 12 then ['\\', 'f']
  else if c.toNat < 32 ∨ c.toNat > 126 then
    if c.toNat < 65536 then '\\' :: 'u' :: u4 c.toNat
    else
      let v := c.toNat - 65536
      ('\\' :: 'u' :: u4 (55296 + v / 1024)) ++ ('\\' :: 'u' :: u4 (56320 + v % 1024))
  else [c]

/-- A JSON string literal. -/
def jsonStr (s : String) : String :=
  String.mk ('"' :: s.toList.flatMap escChar ++ ['"'])

/-- `sorted(d.items())` comparison on (key, rendered value) pairs: Python
tuple comparison is lexicographic, and equal keys never occur in a dict. -/
def pairLe (a b : String × String) : Prop :=
  a.1 < b.1 ∨ (a.1 = b.1 ∧ a.2 ≤ b.2)

instance : DecidableRel pairLe := fun _ _ =>
  inferInstanceAs (Decidable (_ ∨ _))

instance : IsTotal (String × String) pairLe where
  total a b := by
    rcases lt_trichotomy a.1 b.1 with h | h | h
    · exact Or.inl (Or.inl h)
    · rcases le_total a.2 b.2 with h2 | h2
      · exact Or.inl (Or.inr ⟨h, h2⟩)
      · exact Or.inr (Or.inr ⟨h.symm, h2⟩)
    · exact Or.inr (Or.inl h)

instance : IsTrans (String × String) pairLe where
  trans a b c hab hbc := by
    rcases hab with h1 | ⟨h1, h1v⟩ <;> rcases hbc with h2 | ⟨h2, h2v⟩
    · exact Or.inl (h1.trans h2)
    · exact Or.inl (h2 ▸ h1)
    · exact Or.inl (h1 ▸ h2)
    · exact Or.inr ⟨h1.trans h2, h1v.trans h2v⟩

instance : IsAntisymm (String × String) pairLe where
  antisymm a b hab hba := by
    rcases hab with h1 | ⟨h1, h1v⟩ <;> rcases hba with h2 | ⟨h2, h2v⟩
    · exact absurd h2 (lt_asymm h1)
    · exact absurd h1 (h2 ▸ lt_irrefl _)
    · exact absurd h2 (h1 ▸ lt_irrefl _)
    · exact Prod.ext h1 (le_antisymm h1v h2v)

/-- `json.dumps(v, sort_keys=True, default=str)`.  Numeric rendering is
modelled (`num/den` for non-integral rationals where CPython prints a
decimal float repr); everything else follows the CPython encoder. -/
def serialize : JVal → String
  | .null => "null"
  | .bool b => if b then "true" else "false"
  | .num q => if q.den = 1 then toString q.num else toString q.num ++ "/" ++ toString q.den
  | .str s => jsonStr s
  | .arr xs =>
      "[" ++ String.intercalate ", " (xs.attach.map (fun x => serialize x.1)) ++ "]"
  | .obj es =>
      let rendered := es.attach.map (fun p => (p.1.1, serialize p.1.2))
      "\x7b" ++ String.intercalate ", "
        ((rendered.insertionSort pairLe).map (fun p => jsonStr p.1 ++ ": " ++ p.2)) ++ "\x7d"
  | .date y m d => jsonStr (pyStr (.date y m d))
termination_by v => sizeOf v
decreasing_by
  · have h := List.sizeOf_lt_of_mem x.2
    simp only [JVal.arr.sizeOf_spec]
    omega
  · have h := List.sizeOf_lt_of_mem p.2
    have h2 : sizeOf p.1.2 < sizeOf p.1 := by
      obtain ⟨⟨a, b⟩, hm⟩ := p
      simp
    simp only [JVal.obj.sizeOf_spec]
    omega

/-! #### SHA-256 (pure `Nat` implementation, mod `2^32`) -/

def w32 : Nat := 4294967296

def rotr32 (x n : Nat) : Nat := ((x >>> n) + (x <<< (32 - n))) % w32

def shr32 (x n : Nat) : Nat := x >>> n

def xor3 (a b c : Nat) : Nat := (a ^^^ b) ^^^ c

def sha256K : List Nat :=
  [1116352408, 1899447441, 3049323471, 3921009573, 961987163,
   1508970993, 2453635748, 2870763221, 3624381080, 310598401,
   607225278, 1426881987, 1925078388, 2162078206, 2614888103,
   3248222580, 3835390401, 4022224774, 264347078, 604807628,
   770255983, 1249150122, 1555081692, 1996064986, 2554220882,
   2821834349, 2952996808, 3210313671, 3336571891, 3584528711,
   113926993, 338241895, 666307205, 773529912, 1294757372,
   1396182291, 1695183700, 1986661051, 2177026350, 2456956037,
   2730485921, 2820302411, 3259730800, 3345764771, 3516065817,
   3600352804, 4094571909, 275423344, 430227734, 506948616,
   659060556, 883997877, 958139571, 1322822218, 1537002063,
   1747873779, 1955562222, 2024104815, 2227730452, 2361852424,
   2428436474, 2756734187, 3204031479, 3329325298]

def sha256H0 : List Nat :=
  [1779033703, 3144134277, 1013904242, 2773480762,
   1359893119, 2600822924, 528734635, 1541459225]

/-- UTF-8 encoding of one code point. -/
def utf8Char (n : Nat) : List Nat :=
  if n < 128 then [n]
  else if n < 2048 then [192 + n / 64, 128 + n % 64]
  else if n < 65536 then [224 + n / 4096, 128 + n / 64 % 64, 128 + n % 64]
  else [240 + n / 262144, 128 + n / 4096 % 64, 128 + n / 64 % 64, 128 + n % 64]

def utf8Bytes (s : String) : List Nat :=
  s.toList.flatMap (fun c => utf8Char c.toNat)

/-- SHA-256 message padding. -/
def shaPad (msg : List Nat) : List Nat :=
  let l := msg.length
  let z := (119 - l % 64) % 64
  let bits := 8 * l
  msg ++ [128] ++ List.replicate z 0 ++
    [bits / 2 ^ 56 % 256, bits / 2 ^ 48 % 256, bits / 2 ^ 40 % 256, bits / 2 ^ 32 % 256,
     bits / 2 ^ 24 % 256, bits / 2 ^ 16 % 256, bits / 2 ^ 8 % 256, bits % 256]

/-- Split into 64-byte blocks. -/
def chunks64 (l : List Nat) : List (List Nat) :=
  if l = [] then []
  else l.take 64 :: chunks64 (l.drop 64)
termination_by l.length
decreasing_by
  rename_i h
  have : l.length ≠ 0 := fun h0 => h (List.eq_nil_of_length_eq_zero h0)
  simp only [List.length_drop]
  omega

/-- The 64-entry message schedule of one block. -/
def shaSchedule (block : List Nat) : List Nat :=
  let w16 := (List.range 16).map (fun i =>
    block.getD (4 * i) 0 * 16777216 + block.getD (4 * i + 1) 0 * 65536 +
    block.getD (4 * i + 2) 0 * 256 + block.getD (4 * i + 3) 0)
  (List.range 48).foldl (fun w _ =>
    let a := w.getD (w.length - 15) 0
    let b := w.getD (w.length - 2) 0
    let s0 := xor3 (rotr32 a 7) (rotr32 a 18) (shr32 a 3)
    let s1 := xor3 (rotr32 b 17) (rotr32 b 19) (shr32 b 10)
    w ++ [(w.getD (w.length - 16) 0 + s0 + w.getD (w.length - 7) 0 + s1) % w32]) w16

/-- One SHA-256 compression round. -/
def shaRound (st : List Nat) (kw : Nat × Nat) : List Nat :=
  match st with
  | [a, b, c, d, e, f, g, h] =>
      let s1 := xor3 (rotr32 e 6) (rotr32 e 11) (rotr32 e 25)
      let ch := ((e &&& f) ^^^ ((w32 - 1 - e) &&& g)) % w32
      let t1 := (h + s1 + ch + kw.1 + kw.2) % w32
      let s0 := xor3 (rotr32 a 2) (rotr32 a 13) (rotr32 a 22)
      let mj := xor3 (a &&& b) (a &&& c) (b &&& c)
      let t2 := (s0 + mj) % w32
      [(t1 + t2) % w32, a, b, c, (d + t1) % w32, e, f, g]
  | st => st

/-- Compress one block into the running hash state. -/
def shaCompress (hs : List Nat) (block : List Nat) : List Nat :=
  let ws := shaSchedule block
  let fin := (sha256K.zip ws).foldl shaRound hs
  (hs.zip fin).map (fun p => (p.1 + p.2) % w32)

def toHex8 (n : Nat) : List Char :=
  [hexDigitChar (n / 2 ^ 28 % 16), hexDigitChar (n / 2 ^ 24 % 16),
   hexDigitChar (n / 2 ^ 20 % 16), hexDigitChar (n / 2 ^ 16 % 16),
   hexDigitChar (n / 2 ^ 12 % 16), hexDigitChar (n / 2 ^ 8 % 16),
   hexDigitChar (n / 2 ^ 4 % 16), hexDigitChar (n % 16)]

/-- `hashlib.sha256(bytes).hexdigest()`. -/
def sha256Hex (msg : List Nat) : String :=
  String.mk (((chunks64 (shaPad msg)).foldl shaCompress sha256H0).flatMap toHex8)

/-- `RawRecord.compute_hash`. -/
def compute_hash (record_data : JDict) : String :=
  sha256Hex (utf8Bytes (serialize (.obj record_data)))

/-! ### `run_collection_job` / `_flush_batch` (scheduler/manager.py)

The persistence layer is modelled as an explicit `DB` value; the collector
is modelled by its observable behaviour: the list of raw records it yields
before either finishing normally or raising (an `Option String` carrying
the exception message).  Schedule `last_run` bookkeeping is not modelled
(no claim touches it). -/

/-- A `CollectionRun` row. -/
structure RunRow where
  id : Nat
  source_id : Nat
  schedule_id : Option Nat
  status : String
  triggered_by : String
  records_fetched : Nat := 0
  records_stored : Nat := 0
  records_skipped : Nat := 0
  error_message : Option String := none
  completed : Bool := false
deriving DecidableEq, Repr

/-- A persisted `RawRecord` row, with the fields `run_collection_job`
fills in. -/
structure StoredRecord where
  source_id : Nat
  run_id : Nat
  state : JVal
  category : JVal
  subcategory : JVal
  name : JVal
  license_number : JVal
  license_type : JVal
  license_status : JVal
  address : JVal
  city : JVal
  zip_code : JVal
  county : JVal
  latitude : JVal
  longitude : JVal
  phone : JVal
  email : JVal
  website : JVal
  record_date : JVal
  license_date : JVal
  expiry_date : JVal
  record_data : JDict
  record_hash : String

/-- A `CollectionLog` row (its `details` dict flattened into fields). -/
structure LogRow where
  run_id : Nat
  source_id : Nat
  level : String
  message : String
  details_status : String
  details_fetched : Nat
  details_stored : Nat
  details_error : Option String

/-- The database state shared by runs. -/
structure DB where
  runs : List RunRow := []
  records : List StoredRecord := []
  logs : List LogRow := []
  next_run_id : Nat := 1

/-- `str(e)` for the exceptions we model. -/
def pyErrMsg : PyErr → String
  | .typeError => "TypeError"
  | .attributeError => "AttributeError"
  | .keyError => "KeyError"
  | .collectionError m => m

/-- The `RawRecord(...)` construction inside the collection loop. -/
def buildRecord (sid rid : Nat) (src : DataSource) (normalized raw : JDict) : StoredRecord :=
  { source_id := sid
    run_id := rid
    state := dictGet normalized "state"
    category := pyOr (dictGet normalized "category") src.category
    subcategory := pyOr (dictGet normalized "subcategory") src.subcategory
    name := dictGet normalized "name"
    license_number := dictGet normalized "license_number"
    license_type := dictGet normalized "license_type"
    license_status := dictGet normalized "license_status"
    address := dictGet normalized "address"
    city := dictGet normalized "city"
    zip_code := dictGet normalized "zip_code"
    county := dictGet normalized "county"
    latitude := dictGet normalized "latitude"
    longitude := dictGet normalized "longitude"
    phone := dictGet normalized "phone"
    email := dictGet normalized "email"
    website := dictGet normalized "website"
    record_date := dictGet normalized "record_date"
    license_date := dictGet normalized "license_date"
    expiry_date := dictGet normalized "expiry_date"
    record_data := raw
    record_hash := compute_hash raw }

/-- `_flush_batch`: persists every record of the batch in one transaction
and returns the stored count (the hash-based duplicate check is commented
out in the source, so every record is added). -/
def flush_batch (batch : List StoredRecord) (db : DB) : Nat × DB :=
  if batch.isEmpty then (0, db)
  else (batch.length, { db with records := db.records ++ batch })

/-- The per-run loop state: counters, the in-memory batch, and the
database as mutated by the flushes so far. -/
structure LoopSt where
  fetched : Nat
  stored : Nat
  skipped : Nat
  batch : List StoredRecord
  db : DB

/-- The `for raw_record in collector.collect()` loop with `batch_size = 500`;
`.inr` is an exception raised while normalizing (the partial batch is
dropped, exactly as in the `except` path of the source). -/
def jobLoop (src : DataSource) (sid rid : Nat) :
    List JDict → LoopSt → LoopSt ⊕ (PyErr × LoopSt)
  | [], st => .inl st
  | raw :: rest, st =>
      let st := { st with fetched := st.fetched + 1 }
      match normalize src raw with
      | .error e => .inr (e, st)
      | .ok normalized =>
          let record := buildRecord sid rid src normalized raw
          let batch := st.batch ++ [record]
          if batch.length ≥ 500 then
            let pr := flush_batch batch st.db
            jobLoop src sid rid rest
              { st with stored := st.stored + pr.1,
                        skipped := st.skipped + (batch.length - pr.1),
                        batch := [], db := pr.2 }
          else jobLoop src sid rid rest { st with batch := batch }

/-- `run_collection_job`.  Arguments: the database, the looked-up source
(`none` when the id is unknown, in which case a `ValueError` propagates),
the source id, the schedule id, the `triggered_by` tag, and the collector
behaviour (`(records yielded, exception after the last yield)`).
Returns the summary dict and the final database. -/
def run_collection_job (db : DB) (source : Option DataSource) (sid : Nat)
    (schedule_db_id : Option Nat) (triggered_by : String)
    (stream : List JDict × Option String) : Except String (JDict × DB) :=
  match source with
  | none => .error ("DataSource " ++ toString sid ++ " not found")
  | some src =>
    if ¬ src.enabled then .ok ([("status", .str "skipped")], db)
    else
      let rid := db.next_run_id
      let db1 : DB :=
        { db with
          runs := db.runs ++ [{ id := rid, source_id := sid,
                                schedule_id := schedule_db_id, status := "running",
                                triggered_by := triggered_by }],
          next_run_id := rid + 1 }
      let fin :=
        match jobLoop src sid rid stream.1 ⟨0, 0, 0, [], db1⟩ with
        | .inr (e, st) => ("failed", some (pyErrMsg e), st)
        | .inl st =>
            match stream.2 with
            | some m => ("failed", some m, st)
            | none =>
                let pr := flush_batch st.batch st.db
                ("success", none,
                 { st with stored := st.stored + pr.1,
                           skipped := st.skipped + (st.batch.length - pr.1),
                           batch := [], db := pr.2 })
      let status := fin.1
      let errMsg := fin.2.1
      let st := fin.2.2
      let dbF : DB :=
        { st.db with
          runs := st.db.runs.map (fun r =>
            if r.id = rid then
              { r with status := status, records_fetched := st.fetched,
                       records_stored := st.stored, records_skipped := st.skipped,
                       error_message := errMsg, completed := true }
            else r),
          logs := st.db.logs ++
            [{ run_id := rid, source_id := sid,
               level := if status = "success" then "INFO" else "ERROR",
               message := "Collection " ++ status ++ ": " ++ toString st.stored ++
                          "/" ++ toString st.fetched ++ " records stored",
               details_status := status, details_fetched := st.fetched,
               details_stored := st.stored, details_error := errMsg }] }
      .ok ([("status", .str status), ("run_id", .num rid),
            ("records_fetched", .num st.fetched), ("records_stored", .num st.stored),
            ("error", match errMsg with | some m => .str m | none => .null)], dbF)

/-! ### Vocabulary used by the claim statements -/

/-- The numeric value of a coordinate field, `none` when absent/null/non-numeric. -/
def coordNum (n : JDict) (k : String) : Option ℚ :=
  match dictGet n k with
  | .num q => some q
  | _ => none

/-- The spec's coordinate validity: absent, or a number within `±limit`. -/
def validCoordVal (limit : ℚ) : JVal → Prop
  | .null => True
  | .num q => -limit ≤ q ∧ q ≤ limit
  | _ => False

/-- The records of one cursor-pagination response body (defined when
`extract_records` succeeds). -/
def pageRecs (b : JVal) : List JVal :=
  (extract_records b).toOption.getD []

/-- Does a GeoJSON body's `type` dispatch to a known branch? -/
def geoTypeKnown (g : JDict) : Bool :=
  match List.lookup "type" g with
  | some (.str s) => s = "FeatureCollection" ∨ s = "Feature"
  | _ => false

/-- The request count C5 predicts: `ceil(N/P)`, plus one when `P` divides
`N` (the extra empty page). -/
def expectedRequests (n p : Nat) : Nat :=
  if p ∣ n then n / p + 1 else (n + p - 1) / p

/-! ## Dictionary lemmas -/

theorem lookup_dictSet (d : JDict) (k k0 : String) (v : JVal) :
    List.lookup k0 (dictSet d k v) = if k0 = k then some v else List.lookup k0 d := by
  induction d with
  | nil =>
      by_cases h : k0 = k
      · subst h; simp [dictSet, List.lookup]
      · simp [dictSet, List.lookup, h, beq_eq_false_iff_ne.mpr h]
  | cons p rest ih =>
      obtain ⟨k1, v1⟩ := p
      by_cases h1 : k1 = k
      · subst h1
        by_cases h0 : k0 = k1
        · subst h0; simp [dictSet, List.lookup]
        · simp [dictSet, List.lookup, h0, beq_eq_false_iff_ne.mpr h0]
      · have hset : dictSet ((k1, v1) :: rest) k v = (k1, v1) :: dictSet rest k v := by
          simp [dictSet, h1]
        rw [hset]
        by_cases h0 : k0 = k1
        · subst h0
          simp [List.lookup, h1]
        · simp [List.lookup, beq_eq_false_iff_ne.mpr h0, ih]

/-! ## C2 — date parsing of 2024-03-05 in the nine formats -/

/-- C2 counterexample: the `%d/%m/%Y` rendering of 2024-03-05 is captured
by the earlier `%m/%d/%Y` format and parses to 2024-05-03, so the nine
formats do not all round-trip to the same calendar date. -/
theorem c2_eu_day_first_counterexample :
    parse_date_string "05/03/2024" = some ⟨2024, 5, 3⟩ ∧
    (⟨2024, 5, 3⟩ : CalDate) ≠ ⟨2024, 3, 5⟩ ∧
    parse_date_string "March 5, 2024" = none := by
  refine ⟨by decide, by decide, by decide⟩

/-- C2 amended: the ISO, US-slash, US-dash, `%Y/%m/%d`, two-digit-year and
`DD-Mon-YYYY` renderings of 2024-03-05 all parse to 2024-03-05; the two EU
day-first renderings are consumed by the earlier US formats and parse to
2024-05-03; the long form `March 5, 2024` is truncated at its first space
and yields an absent date; unparseable strings also yield an absent date
rather than an error (the parser is total into `Option`). -/
theorem c2_date_formats :
    parse_date_string "2024-03-05" = some ⟨2024, 3, 5⟩ ∧
    parse_date_string "03/05/2024" = some ⟨2024, 3, 5⟩ ∧
    parse_date_string "03-05-2024" = some ⟨2024, 3, 5⟩ ∧
    parse_date_string "2024/03/05" = some ⟨2024, 3, 5⟩ ∧
    parse_date_string "03/05/24" = some ⟨2024, 3, 5⟩ ∧
    parse_date_string "05-Mar-2024" = some ⟨2024, 3, 5⟩ ∧
    parse_date_string "05/03/2024" = some ⟨2024, 5, 3⟩ ∧
    parse_date_string "05-03-2024" = some ⟨2024, 5, 3⟩ ∧
    parse_date_string "March 5, 2024" = none ∧
    parse_date_string "2024-03-05T10:11:12" = some ⟨2024, 3, 5⟩ ∧
    parse_date_string "not a date" = none := by
  decide

/-! ## C4 — unexpected top-level response types -/

/-- C4 counterexample: the generic API collector's `_extract_records`
returns the empty list for a scalar body and for an object without any
recognized wrapper key, so `collect()` yields a silent empty sequence
instead of raising `CollectionError`. -/
theorem c4_counterexample :
    api_collect_none (.num 5) = .ok [] ∧
    api_collect_none (.obj [("foo", .num 1)]) = .ok [] ∧
    api_collect_none (.str "surprise") = .ok [] := by
  exact ⟨rfl, rfl, rfl⟩

/-- C4 amended: the GeoJSON collector raises `CollectionError` on a body
whose `type` is neither `FeatureCollection` nor `Feature`, but the generic
API collector yields an empty sequence (no error) on scalar bodies and on
objects carrying none of the recognized wrapper keys. -/
theorem c4_unexpected_toplevel :
    (∀ q, api_collect_none (.num q) = .ok []) ∧
    (∀ s, api_collect_none (.str s) = .ok []) ∧
    (∀ b, api_collect_none (.bool b) = .ok []) ∧
    (api_collect_none .null = .ok []) ∧
    (∀ d : JDict,
      (∀ k, k ∈ (["data", "results", "records", "items", "features", "hits"] : List String) →
        ∀ xs, List.lookup k d ≠ some (.arr xs)) →
      (∀ h, List.lookup "hits" d ≠ some (.obj h)) →
      api_collect_none (.obj d) = .ok []) ∧
    (∀ g : JDict, geoTypeKnown g = false →
      ∃ m, geojson_collect (.obj g) = .error (.collectionError m)) := by
  refine ⟨fun _ => rfl, fun _ => rfl, fun _ => rfl, rfl, ?_, ?_⟩
  · intro d hwrap hhits
    simp only [api_collect_none, extract_records]
    have hfind : (["data", "results", "records", "items", "features", "hits"] :
        List String).findSome?
        (fun k => match List.lookup k d with
                  | some (.arr xs) => some xs
                  | _ => none) = none := by
      rw [List.findSome?_eq_none_iff]
      intro k hk
      specialize hwrap k hk
      cases hlk : List.lookup k d with
      | none => rfl
      | some w =>
          cases w with
          | arr xs => exact absurd hlk (hwrap xs)
          | null => rfl
          | bool b => rfl
          | num q => rfl
          | str s2 => rfl
          | obj es => rfl
          | date y m dd => rfl
    rw [hfind]
  · intro g hg
    simp only [geoTypeKnown] at hg
    simp only [geojson_collect]
    cases ht : List.lookup "type" g with
    | none => exact ⟨_, rfl⟩
    | some v =>
        rw [ht] at hg
        cases v with
        | str s =>
            simp only [decide_eq_false_iff_not, not_or] at hg
            obtain ⟨h1, h2⟩ := hg
            split
            · rename_i heq
              exact absurd (by injection heq) h1
            · rename_i heq
              exact absurd (by injection heq) h2
            · exact ⟨_, rfl⟩
        | null => exact ⟨_, rfl⟩
        | bool b => exact ⟨_, rfl⟩
        | num q => exact ⟨_, rfl⟩
        | arr xs => exact ⟨_, rfl⟩
        | obj es => exact ⟨_, rfl⟩
        | date y m d => exact ⟨_, rfl⟩

/-! ## C7 — disabled source is a pure no-op -/

/-- C7: invoking the job on a disabled source returns only
`{"status": "skipped"}` and leaves the database exactly as it was — no run
row (in any state), no records, no log entry; the collector stream is
never consumed (the result does not depend on it), so no request is made. -/
theorem c7_disabled_source (db : DB) (src : DataSource) (sid : Nat)
    (sched : Option Nat) (trig : String) (stream : List JDict × Option String)
    (hdis : src.enabled = false) :
    run_collection_job db (some src) sid sched trig stream =
      .ok ([("status", .str "skipped")], db) := by
  simp [run_collection_job, hdis]

/-- C7 witness at a concrete disabled source. -/
theorem c7_disabled_source_witness :
    ({ enabled := false } : DataSource).enabled = false ∧
    run_collection_job {} (some { enabled := false }) 2 none "api"
        ([[("name", .str "x")]], none) =
      .ok ([("status", .str "skipped")], {}) :=
  ⟨rfl, c7_disabled_source {} { enabled := false } 2 none "api"
      ([[("name", .str "x")]], none) rfl⟩

/-! ## C6 — result mapping keys -/

/-- C6 counterexample: on a disabled source the result mapping is only
`{"status": "skipped"}` — it does not contain `run_id`,
`records_fetched`, `records_stored` or `error`, so the claim that every
result carries all five keys is false. -/
theorem c6_counterexample :
    run_collection_job {} (some { enabled := false }) 1 none "manual" ([], none) =
      .ok ([("status", .str "skipped")], {}) ∧
    ([("status", JVal.str "skipped")] : JDict).map Prod.fst = ["status"] ∧
    hasKey [("status", JVal.str "skipped")] "run_id" = false :=
  ⟨rfl, rfl, rfl⟩

/-- C6 amended: every result mapping returned for an *enabled* source —
whatever the outcome — carries exactly the five keys `status`, `run_id`,
`records_fetched`, `records_stored`, `error`; the disabled-source result
carries only `status`. -/
theorem c6_result_keys (db : DB) (src : DataSource) (sid : Nat)
    (sched : Option Nat) (trig : String) (stream : List JDict × Option String)
    (res : JDict) (db1 : DB)
    (hen : src.enabled = true)
    (h : run_collection_job db (some src) sid sched trig stream = .ok (res, db1)) :
    res.map Prod.fst = ["status", "run_id", "records_fetched", "records_stored", "error"] := by
  simp only [run_collection_job, hen, not_true, ite_false, if_false,
    Bool.true_eq_false, Except.ok.injEq, Prod.mk.injEq] at h
  obtain ⟨h1, -⟩ := h
  subst h1
  rfl

/-- C6 witness: the theorem applied to a concrete enabled source. -/
theorem c6_result_keys_witness :
    ((run_collection_job {} (some {}) 1 none "cli" ([], none)).toOption.getD
        ([], {})).1.map Prod.fst =
      ["status", "run_id", "records_fetched", "records_stored", "error"] :=
  c6_result_keys {} {} 1 none "cli" ([], none) _ _ rfl rfl

/-- C4 witness: the amended theorem applied at concrete inputs — a scalar
body and a wrapper-free object for the generic collector, and an unknown
`type` for the GeoJSON collector. -/
theorem c4_unexpected_toplevel_witness :
    api_collect_none (.num 5) = .ok [] ∧
    api_collect_none (.obj [("foo", .num 1)]) = .ok [] ∧
    ∃ m, geojson_collect (.obj [("type", .str "Polygon")]) =
      .error (.collectionError m) :=
  ⟨c4_unexpected_toplevel.1 5,
   c4_unexpected_toplevel.2.2.2.2.1 [("foo", .num 1)]
     (by intro k hk xs h
         fin_cases hk <;> simp [List.lookup] at h)
     (by intro h hcontra
         simp [List.lookup] at hcontra),
   c4_unexpected_toplevel.2.2.2.2.2 [("type", .str "Polygon")] rfl⟩

/-! ## C5 — offset/page pagination termination and request counts -/

theorem expectedRequests_step (m P : Nat) (hP : 0 < P) (h : P ≤ m) :
    expectedRequests (m - P) P + 1 = expectedRequests m P := by
  unfold expectedRequests
  by_cases hd : P ∣ m
  · have hd2 : P ∣ m - P := Nat.dvd_sub' hd dvd_rfl
    rw [if_pos hd2, if_pos hd, Nat.div_eq_sub_div hP h]
  · have hd2 : ¬ P ∣ m - P := fun hdd => hd (by
      have hsum : m - P + P = m := Nat.sub_add_cancel h
      exact hsum ▸ Nat.dvd_add hdd dvd_rfl)
    rw [if_neg hd2, if_neg hd]
    have h1 : m - P + P - 1 = m - 1 := by omega
    have h2 : m + P - 1 = (m - 1) + P := by omega
    rw [h1, h2, Nat.add_div_right _ hP]

theorem offsetLoop_spec (all : List JVal) (P : Nat) (hP : 0 < P) :
    ∀ offset, offsetLoop all P offset =
      (expectedRequests (all.length - offset) P, all.drop offset) := by
  suffices H : ∀ m offset, all.length - offset = m →
      offsetLoop all P offset =
        (expectedRequests (all.length - offset) P, all.drop offset) by
    exact fun offset => H _ offset rfl
  intro m
  induction m using Nat.strong_induction_on with
  | _ m ih =>
    intro offset hn
    rw [offsetLoop.eq_def]
    split_ifs with h1 h2
    · -- empty page: the server is exhausted
      rw [List.isEmpty_eq_true, List.take_eq_nil_iff] at h1
      have hdrop : all.drop offset = [] := h1.resolve_left (by omega)
      have hle : all.length ≤ offset := List.drop_eq_nil_iff.mp hdrop
      have hm : all.length - offset = 0 := by omega
      rw [hm, hdrop, expectedRequests, if_pos (dvd_zero P), Nat.zero_div]
    · -- short page: last page
      rw [List.isEmpty_eq_true, List.take_eq_nil_iff] at h1
      push_neg at h1
      have hlt : offset < all.length := by
        rcases Nat.lt_or_ge offset all.length with h | h
        · exact h
        · exact absurd (List.drop_eq_nil_iff.mpr h) h1.2
      rw [List.length_take, List.length_drop] at h2
      have hm : 0 < all.length - offset ∧ all.length - offset < P := by omega
      have hnd : ¬ P ∣ (all.length - offset) := fun hd =>
        absurd (Nat.le_of_dvd hm.1 hd) (by omega)
      have htake : (all.drop offset).take P = all.drop offset :=
        List.take_of_length_le (by rw [List.length_drop]; omega)
      have hdiv1 : (all.length - offset + P - 1) / P = 1 :=
        Nat.div_eq_of_lt_le (by omega) (by omega)
      rw [htake, expectedRequests, if_neg hnd, hdiv1]
    · -- full page: recurse
      rw [List.isEmpty_eq_true, List.take_eq_nil_iff] at h1
      push_neg at h1
      have hlt : offset < all.length := by
        rcases Nat.lt_or_ge offset all.length with h | h
        · exact h
        · exact absurd (List.drop_eq_nil_iff.mpr h) h1.2
      rw [List.length_take, List.length_drop] at h2
      have hPm : P ≤ all.length - offset := by omega
      rw [ih (all.length - (offset + P)) (by omega) (offset + P) rfl]
      have hdd : all.drop (offset + P) = (all.drop offset).drop P := by
        rw [List.drop_drop]
      rw [hdd]
      refine congrArg₂ Prod.mk ?_ (List.take_append_drop _ _)
      have harith : all.length - (offset + P) = (all.length - offset) - P := by omega
      rw [harith, expectedRequests_step _ _ hP hPm]

theorem pageLoop_eq_offsetLoop (all : List JVal) (P : Nat) :
    ∀ idx, pageLoop all P idx = offsetLoop all P (idx * P) := by
  suffices H : ∀ m idx, all.length - idx * P = m →
      pageLoop all P idx = offsetLoop all P (idx * P) by
    exact fun idx => H _ idx rfl
  intro m
  induction m using Nat.strong_induction_on with
  | _ m ih =>
    intro idx hn
    rw [pageLoop.eq_def, offsetLoop.eq_def]
    split_ifs with h1 h2
    · rfl
    · rfl
    · rw [List.isEmpty_eq_true, List.take_eq_nil_iff] at h1
      push_neg at h1
      have hlt : idx * P < all.length := by
        rcases Nat.lt_or_ge (idx * P) all.length with h | h
        · exact h
        · exact absurd (List.drop_eq_nil_iff.mpr h) h1.2
      rw [List.length_take, List.length_drop] at h2
      have hstep : (idx + 1) * P = idx * P + P := by ring
      rw [ih (all.length - (idx + 1) * P) (by omega) (idx + 1) rfl, hstep]

/-- C5: for both offset and page pagination against a server holding the
record list `all` served in pages of `P`, the collector terminates (the
loops are total functions), yields exactly `all` in order, and issues
`ceil(N/P)` requests when the last non-empty page is short, or
`ceil(N/P)+1` when `P` divides `N` (the extra request fetches the empty
page). -/
theorem c5_pagination (all : List JVal) (P : Nat) (hP : 0 < P) :
    (fetch_offset_paginated all P).2 = all ∧
    (fetch_offset_paginated all P).1 = expectedRequests all.length P ∧
    (fetch_page_paginated all P).2 = all ∧
    (fetch_page_paginated all P).1 = expectedRequests all.length P := by
  have ho := offsetLoop_spec all P hP 0
  have hp := pageLoop_eq_offsetLoop all P 0
  rw [Nat.zero_mul, ho] at hp
  simp only [fetch_offset_paginated, fetch_page_paginated, ho, hp,
    Nat.sub_zero, List.drop_zero]
  exact ⟨trivial, trivial, trivial, trivial⟩

/-- C5 witness: 3 records with page size 2 — two requests
(`ceil(3/2) = 2`), all records yielded in order; and 4 records with page
size 2 — three requests (`4/2 + 1`). -/
theorem c5_pagination_witness :
    (0 < 2 ∧
      (fetch_offset_paginated [JVal.num 1, .num 2, .num 3] 2).2 =
        [JVal.num 1, .num 2, .num 3] ∧
      (fetch_offset_paginated [JVal.num 1, .num 2, .num 3] 2).1 = 2) ∧
    (fetch_page_paginated [JVal.num 1, .num 2, .num 3, .num 4] 2).1 = 3 := by
  have h3 := c5_pagination [JVal.num 1, .num 2, .num 3] 2 (by decide)
  have h4 := c5_pagination [JVal.num 1, .num 2, .num 3, .num 4] 2 (by decide)
  refine ⟨⟨by decide, h3.1, ?_⟩, ?_⟩
  · rw [h3.2.1]; decide
  · rw [h4.2.2.2]; decide

/-! ## C8 — cursor pagination stops at the first absent/empty cursor -/

/-- C8: if every response before some page carries a truthy cursor and a
non-empty record list, and that page has an absent (`null`) or empty
cursor token at the configured dot-path — or an empty record list — then
the cursor loop terminates right after that page's request and yields
exactly the concatenation of the records of all pages up to and including
it. -/
theorem c8_cursor_termination (cf : String) (pre : List JVal) (body : JVal)
    (post : List JVal)
    (hpre : ∀ b ∈ pre, (extract_records b).isOk = true ∧
        (pageRecs b).isEmpty = false ∧ truthy (api_nested_get b cf) = true)
    (hbody : (extract_records body).isOk = true)
    (hstop : api_nested_get body cf = .null ∨ api_nested_get body cf = .str "" ∨
        (pageRecs body).isEmpty = true) :
    cursorLoop cf (pre ++ body :: post) =
      .ok (pre.length + 1, (pre.map pageRecs).flatten ++ pageRecs body) := by
  induction pre with
  | nil =>
      simp only [List.nil_append, cursorLoop]
      cases hex : extract_records body with
      | error e =>
          rw [hex] at hbody
          simp [Except.isOk, Except.toBool] at hbody
      | ok recs =>
          have hpr : pageRecs body = recs := by
            simp [pageRecs, hex, Except.toOption]
          rw [hpr] at hstop
          have hcond : ¬ truthy (api_nested_get body cf) = true ∨ recs.isEmpty = true := by
            rcases hstop with h | h | h
            · exact Or.inl (by rw [h]; decide)
            · exact Or.inl (by rw [h]; decide)
            · exact Or.inr h
          dsimp only
          rw [if_pos hcond]
          simp [hpr]
  | cons b pre ih =>
      obtain ⟨hb1, hb2, hb3⟩ := hpre b (List.mem_cons_self b _)
      have hpre2 : ∀ x ∈ pre, (extract_records x).isOk = true ∧
          (pageRecs x).isEmpty = false ∧ truthy (api_nested_get x cf) = true :=
        fun x hx => hpre x (List.mem_cons_of_mem _ hx)
      simp only [List.cons_append, cursorLoop]
      cases hex : extract_records b with
      | error e =>
          rw [hex] at hb1
          simp [Except.isOk, Except.toBool] at hb1
      | ok recs =>
          have hpr : pageRecs b = recs := by
            simp [pageRecs, hex, Except.toOption]
          have hcond : ¬ (¬ truthy (api_nested_get b cf) = true ∨ recs.isEmpty = true) := by
            push_neg
            refine ⟨hb3, ?_⟩
            rw [← hpr, hb2]
            decide
          dsimp only
          rw [if_neg hcond]
          simp only [List.append_eq]
          rw [ih hpre2]
          simp [hpr, List.append_assoc]

/-- C8 witness: one normal page with cursor `"c"`, then a page whose
cursor is absent; the loop issues exactly two requests and never touches
the response after the stopping page. -/
theorem c8_cursor_termination_witness :
    cursorLoop "next"
        [.obj [("data", .arr [.num 1]), ("next", .str "c")],
         .obj [("data", .arr [.num 2])],
         .obj [("data", .arr [.num 3]), ("next", .str "z")]] =
      .ok (2, [.num 1, .num 2]) :=
  c8_cursor_termination "next"
    [.obj [("data", .arr [.num 1]), ("next", .str "c")]]
    (.obj [("data", .arr [.num 2])])
    [.obj [("data", .arr [.num 3]), ("next", .str "z")]]
    (by intro b hb
        fin_cases hb
        exact ⟨rfl, rfl, rfl⟩)
    rfl
    (Or.inl rfl)

/-! ## C9 — hash determinism -/

theorem serialize_obj_perm (d1 d2 : JDict) (hp : d1.Perm d2) :
    serialize (.obj d1) = serialize (.obj d2) := by
  simp only [serialize]
  have h1 : ∀ (d : JDict),
      (d.attach.map (fun p => (p.1.1, serialize p.1.2))) =
        d.map (fun x => (x.1, serialize x.2)) := by
    intro d
    exact List.attach_map_coe d (fun x => (x.1, serialize x.2))
  rw [h1, h1]
  have hperm : (d1.map (fun x => (x.1, serialize x.2))).Perm
      (d2.map (fun x => (x.1, serialize x.2))) := hp.map _
  have hs : (d1.map (fun x => (x.1, serialize x.2))).insertionSort pairLe =
      (d2.map (fun x => (x.1, serialize x.2))).insertionSort pairLe :=
    List.eq_of_perm_of_sorted
      ((List.perm_insertionSort pairLe _).trans
        (hperm.trans (List.perm_insertionSort pairLe _).symm))
      (List.sorted_insertionSort pairLe _)
      (List.sorted_insertionSort pairLe _)
  rw [hs]

/-- C9: `compute_hash` serializes with sorted keys, so (a) two raw records
whose entry lists are permutations of each other — equal key/value maps
inserted in different orders — hash identically; and (b) two records with
equal hashes either have identical serialized content or exhibit a literal
SHA-256 collision (hashes differ "up to SHA-256 collision"). -/
theorem c9_hash_determinism :
    (∀ d1 d2 : JDict, d1.Perm d2 → compute_hash d1 = compute_hash d2) ∧
    (∀ d1 d2 : JDict, compute_hash d1 = compute_hash d2 →
      serialize (.obj d1) = serialize (.obj d2) ∨
      ∃ s1 s2 : String, s1 ≠ s2 ∧ sha256Hex (utf8Bytes s1) = sha256Hex (utf8Bytes s2)) := by
  constructor
  · intro d1 d2 hp
    unfold compute_hash
    rw [serialize_obj_perm d1 d2 hp]
  · intro d1 d2 hh
    by_cases hs : serialize (.obj d1) = serialize (.obj d2)
    · exact Or.inl hs
    · exact Or.inr ⟨_, _, hs, hh⟩

/-- C9 witness: a two-key record in both insertion orders, and part (b)
applied at a pair of equal records. -/
theorem c9_hash_determinism_witness :
    compute_hash [("a", .num 1), ("b", .num 2)] =
      compute_hash [("b", .num 2), ("a", .num 1)] ∧
    (serialize (.obj [("k", .str "v")]) = serialize (.obj [("k", .str "v")]) ∨
      ∃ s1 s2 : String, s1 ≠ s2 ∧ sha256Hex (utf8Bytes s1) = sha256Hex (utf8Bytes s2)) :=
  ⟨c9_hash_determinism.1 _ _ (List.Perm.swap _ _ _),
   c9_hash_determinism.2 _ _ rfl⟩

/-! ## C10 — a successful run stores everything and skips nothing -/

theorem flush_batch_fst (b : List StoredRecord) (db : DB) :
    (flush_batch b db).1 = b.length := by
  by_cases h : b.isEmpty
  · rw [List.isEmpty_eq_true] at h
    simp [flush_batch, h]
  · simp [flush_batch, h]

theorem flush_batch_runs (b : List StoredRecord) (db : DB) :
    (flush_batch b db).2.runs = db.runs ∧ (flush_batch b db).2.logs = db.logs ∧
    (flush_batch b db).2.next_run_id = db.next_run_id := by
  by_cases h : b.isEmpty <;> simp [flush_batch, h]

theorem sum_match_mono {A B : Type} (x : A ⊕ B) (p q : A → Prop)
    (hpq : ∀ a, p a → q a)
    (hx : match x with | .inl a => p a | .inr _ => True) :
    (match x with | .inl a => q a | .inr _ => True) := by
  cases x with
  | inl a => exact hpq a hx
  | inr b => trivial

/-- Loop state predicate carried through `jobLoop`: no skips, the batch
accounts for the stored/fetched difference, and the flushes touch only the
`records` table. -/
def loopInv (base : DB) (st : LoopSt) : Prop :=
  st.skipped = 0 ∧ st.stored + st.batch.length = st.fetched ∧
  st.db.runs = base.runs ∧ st.db.logs = base.logs ∧
  st.db.next_run_id = base.next_run_id

theorem jobLoop_nil (src : DataSource) (sid rid : Nat) (st : LoopSt) :
    jobLoop src sid rid [] st = .inl st := rfl

theorem jobLoop_cons (src : DataSource) (sid rid : Nat) (raw : JDict)
    (rest : List JDict) (st : LoopSt) :
    jobLoop src sid rid (raw :: rest) st =
      (match normalize src raw with
       | .error e => .inr (e, { st with fetched := st.fetched + 1 })
       | .ok nr =>
          let st1 : LoopSt := { st with fetched := st.fetched + 1 }
          let batch := st1.batch ++ [buildRecord sid rid src nr raw]
          if batch.length ≥ 500 then
            jobLoop src sid rid rest
              { st1 with stored := st1.stored + (flush_batch batch st1.db).1,
                         skipped := st1.skipped + (batch.length - (flush_batch batch st1.db).1),
                         batch := [], db := (flush_batch batch st1.db).2 }
          else jobLoop src sid rid rest { st1 with batch := batch }) := rfl

theorem jobLoop_invariant (src : DataSource) (sid rid : Nat) (raws : List JDict)
    (base : DB) :
    ∀ st : LoopSt, loopInv base st →
    (match jobLoop src sid rid raws st with
     | .inl st2 => loopInv base st2
     | .inr _ => True) := by
  induction raws with
  | nil =>
      intro st hI
      rw [jobLoop_nil]
      exact hI
  | cons raw rest ih =>
      intro st hI
      obtain ⟨h1, h2, h3, h4, h5⟩ := hI
      rw [jobLoop_cons]
      cases normalize src raw with
      | error e => trivial
      | ok nr =>
          dsimp only
          split_ifs with hlen
          · refine ih _ ⟨?_, ?_, ?_, ?_, ?_⟩
            · simp [flush_batch_fst, h1]
            · simp only [flush_batch_fst, List.length_append, List.length_cons,
                List.length_nil]
              omega
            · rw [(flush_batch_runs _ _).1, h3]
            · rw [(flush_batch_runs _ _).2.1, h4]
            · rw [(flush_batch_runs _ _).2.2, h5]
          · refine ih _ ⟨h1, ?_, h3, h4, h5⟩
            simp only [List.length_append, List.length_cons, List.length_nil]
            omega

set_option maxHeartbeats 1000000 in
/-- C10: every run that completes with status `success` has
`records_stored = records_fetched` in its result, and its finalized run
row records zero skipped records — `_flush_batch` persists every record
of every batch (the duplicate check is commented out in the source), so
nothing is ever skipped on the success path. -/
theorem c10_success_no_skips (db : DB) (src : DataSource) (sid : Nat)
    (sched : Option Nat) (trig : String) (raws : List JDict) (errOpt : Option String)
    (res : JDict) (db1 : DB)
    (h : run_collection_job db (some src) sid sched trig (raws, errOpt) = .ok (res, db1))
    (hsucc : dictGet res "status" = .str "success") :
    dictGet res "records_stored" = dictGet res "records_fetched" ∧
    ∃ row : RunRow, db1.runs.getLast? = some row ∧ row.status = "success" ∧
      row.records_skipped = 0 ∧ row.records_stored = row.records_fetched := by
  by_cases hen : src.enabled
  case neg =>
    simp only [run_collection_job, hen, Bool.false_eq_true, not_false_iff,
      if_true, Except.ok.injEq, Prod.mk.injEq] at h
    obtain ⟨h1, -⟩ := h
    subst h1
    exact absurd hsucc (by simp [dictGet, List.lookup])
  case pos =>
    simp only [run_collection_job, hen, not_true, if_false] at h
    set st0 : LoopSt :=
      ⟨0, 0, 0, [],
        ⟨db.runs ++ [⟨db.next_run_id, sid, sched, "running", trig, 0, 0, 0, none, false⟩],
         db.records, db.logs, db.next_run_id + 1⟩⟩ with hst0
    have hinv := jobLoop_invariant src sid db.next_run_id raws st0.db st0
      ⟨rfl, rfl, rfl, rfl, rfl⟩
    cases hj : jobLoop src sid db.next_run_id raws st0 with
    | inr pr =>
        rw [hj] at h
        simp only [Except.ok.injEq, Prod.mk.injEq] at h
        obtain ⟨h1, -⟩ := h
        subst h1
        exact absurd hsucc (by simp [dictGet, List.lookup])
    | inl st2 =>
        rw [hj] at h hinv
        obtain ⟨g1, g2, g3, g4, g5⟩ := hinv
        cases errOpt with
        | some m =>
            simp only [Except.ok.injEq, Prod.mk.injEq] at h
            obtain ⟨h1, -⟩ := h
            subst h1
            exact absurd hsucc (by simp [dictGet, List.lookup])
        | none =>
            simp only [Except.ok.injEq, Prod.mk.injEq] at h
            obtain ⟨h1, h2⟩ := h
            subst h1
            subst h2
            refine ⟨?_, ?_⟩
            · simp [dictGet, List.lookup, flush_batch_fst, g2]
            · refine ⟨⟨db.next_run_id, sid, sched, "success", trig, st2.fetched,
                  st2.stored + (flush_batch st2.batch st2.db).1,
                  st2.skipped + (st2.batch.length - (flush_batch st2.batch st2.db).1),
                  none, true⟩, ?_, rfl, ?_, ?_⟩
              · dsimp only
                rw [(flush_batch_runs st2.batch st2.db).1, g3]
                dsimp only [hst0]
                rw [List.map_append]
                simp only [List.map_cons, List.map_nil]
                rw [List.getLast?_concat]
                simp
              · dsimp only
                rw [flush_batch_fst]
                omega
              · dsimp only
                rw [flush_batch_fst]
                omega

/-- C10 witness: a concrete empty successful run, via the theorem. -/
theorem c10_success_no_skips_witness :
    dictGet ((run_collection_job {} (some {}) 3 none "cli" ([], none)).toOption.getD
        ([], {})).1 "records_stored" =
      dictGet ((run_collection_job {} (some {}) 3 none "cli" ([], none)).toOption.getD
        ([], {})).1 "records_fetched" ∧
    ∃ row : RunRow,
      ((run_collection_job {} (some {}) 3 none "cli" ([], none)).toOption.getD
          ([], {})).2.runs.getLast? = some row ∧
      row.status = "success" ∧ row.records_skipped = 0 ∧
      row.records_stored = row.records_fetched :=
  c10_success_no_skips {} {} 3 none "cli" [] none _ _ rfl rfl

/-! ## C3 — partial-failure accounting (1200 records, batch size 500) -/

set_option maxRecDepth 1000000 in
/-- C3: a collector that yields 1200 records and then raises is handled
entirely inside `run_collection_job` (the function returns a result — no
exception escapes): status `failed`, `records_fetched = 1200`,
`records_stored = 1000` (the two full batches of 500; the 200-record
partial batch is not persisted — exactly 1000 record rows exist), the
error message is the collector's (non-empty), and the single run row is
finalized (`completed`) with those counts. -/
theorem c3_partial_failure_accounting :
    (let R := (run_collection_job {} (some {}) 7 none "manual"
        (List.replicate 1200 ([] : JDict), some "boom")).toOption.getD ([], {})
     (run_collection_job {} (some {}) 7 none "manual"
        (List.replicate 1200 ([] : JDict), some "boom")).isOk = true ∧
     dictGet R.1 "status" = .str "failed" ∧
     dictGet R.1 "records_fetched" = .num 1200 ∧
     dictGet R.1 "records_stored" = .num 1000 ∧
     dictGet R.1 "error" = .str "boom" ∧
     R.2.records.length = 1000 ∧
     R.2.runs.map (fun r => (r.status, r.records_fetched, r.records_stored,
        r.records_skipped, r.error_message, r.completed)) =
       [("failed", 1200, 1000, 0, some "boom", true)]) ∧
    "boom" ≠ "" :=
  ⟨⟨rfl, rfl, rfl, rfl, rfl, rfl, rfl⟩, by decide⟩

/-! ## C1 — coordinate invariant of `normalize` -/

theorem dictGet_dictSet_self (d : JDict) (k : String) (v : JVal) :
    dictGet (dictSet d k v) k = v := by
  simp [dictGet, lookup_dictSet]

theorem dictGet_dictSet_ne (d : JDict) (k k0 : String) (v : JVal) (h : k0 ≠ k) :
    dictGet (dictSet d k v) k0 = dictGet d k0 := by
  simp [dictGet, lookup_dictSet, h]

/-- A range-filtered coordinate is written back as `null` or an in-range
number. -/
theorem validCoordVal_rangeFilter (limit : ℚ) (o : Option PFloat) :
    validCoordVal limit (coordVal (rangeFilter limit o)) := by
  cases o with
  | none => trivial
  | some f =>
      by_cases hf : pfInRange limit f = true
      · cases f with
        | rat q =>
            have hq : -limit ≤ q ∧ q ≤ limit := by simpa [pfInRange] using hf
            simpa [rangeFilter, hf, coordVal, validCoordVal] using hq
        | inf => simp [pfInRange] at hf
        | ninf => simp [pfInRange] at hf
        | nan => simp [pfInRange] at hf
      · simp [rangeFilter, hf, coordVal, validCoordVal]

/-- If the null-island check came back `false`, the written-back pair is
not `(0, 0)`. -/
theorem bothZeroCheck_false_not_zero (a b : Option PFloat)
    (hbz : bothZeroCheck a b = false) :
    ¬(coordVal a = .num 0 ∧ coordVal b = .num 0) := by
  rintro ⟨h1, h2⟩
  cases a with
  | none => exact JVal.noConfusion h1
  | some f =>
      cases f with
      | rat ql =>
          cases b with
          | none => exact JVal.noConfusion h2
          | some g =>
              cases g with
              | rat qo =>
                  have e1 : JVal.num ql = JVal.num 0 := h1
                  have e2 : JVal.num qo = JVal.num 0 := h2
                  injection e1 with hq1
                  injection e2 with hq2
                  simp [bothZeroCheck, hq1, hq2] at hbz
              | inf => exact JVal.noConfusion h2
              | ninf => exact JVal.noConfusion h2
              | nan => exact JVal.noConfusion h2
      | inf => exact JVal.noConfusion h1
      | ninf => exact JVal.noConfusion h1
      | nan => exact JVal.noConfusion h1

/-- The validity facts transport through the final two `dictSet` writes of
`_parse_coordinates`. -/
theorem writeback_coord_props (n : JDict) (a b : JVal)
    (ha : validCoordVal 90 a) (hb : validCoordVal 180 b)
    (hz : ¬(a = .num 0 ∧ b = .num 0)) :
    validCoordVal 90 (dictGet (dictSet (dictSet n "latitude" a) "longitude" b) "latitude") ∧
    validCoordVal 180 (dictGet (dictSet (dictSet n "latitude" a) "longitude" b) "longitude") ∧
    ¬(dictGet (dictSet (dictSet n "latitude" a) "longitude" b) "latitude" = .num 0 ∧
      dictGet (dictSet (dictSet n "latitude" a) "longitude" b) "longitude" = .num 0) := by
  rw [dictGet_dictSet_ne _ _ _ _ (by decide : ("latitude" : String) ≠ "longitude"),
      dictGet_dictSet_self, dictGet_dictSet_self]
  exact ⟨ha, hb, hz⟩

/-- After `_parse_coordinates`, each written coordinate is `null` or an
in-range number, and the pair is never exactly `(0, 0)`. -/
theorem parse_coordinates_valid (n raw : JDict) :
    validCoordVal 90 (dictGet (parse_coordinates n raw) "latitude") ∧
    validCoordVal 180 (dictGet (parse_coordinates n raw) "longitude") ∧
    ¬(dictGet (parse_coordinates n raw) "latitude" = .num 0 ∧
      dictGet (parse_coordinates n raw) "longitude" = .num 0) := by
  unfold parse_coordinates
  dsimp only
  generalize probeLoc raw (dictGet n "latitude") (dictGet n "longitude") = p1
  obtain ⟨lat1, lon1⟩ := p1
  dsimp only
  generalize humanAddrFallback raw lat1 lon1 = p2
  obtain ⟨lat2, lon2⟩ := p2
  dsimp only
  cases hca : convCoord lat2 with
  | error e =>
      exact writeback_coord_props n .null .null trivial trivial (fun hc => JVal.noConfusion hc.1)
  | ok latF =>
      cases hco : convCoord lon2 with
      | error e =>
          exact writeback_coord_props n .null .null trivial trivial
            (fun hc => JVal.noConfusion hc.1)
      | ok lonF =>
          dsimp only
          cases hbz : bothZeroCheck (rangeFilter 90 latF) (rangeFilter 180 lonF) with
          | true =>
              exact writeback_coord_props n .null .null trivial trivial
                (fun hc => JVal.noConfusion hc.1)
          | false =>
              exact writeback_coord_props n (coordVal (rangeFilter 90 latF))
                (coordVal (rangeFilter 180 lonF))
                (validCoordVal_rangeFilter 90 latF) (validCoordVal_rangeFilter 180 lonF)
                (bothZeroCheck_false_not_zero _ _ hbz)

theorem dictGet_parseDateField_ne (n : JDict) (f k : String) (h : k ≠ f) :
    dictGet (parseDateField n f) k = dictGet n k := by
  unfold parseDateField
  dsimp only
  split
  · exact dictGet_dictSet_ne _ _ _ _ h
  · rfl

theorem dictGet_parse_dates_ne (n : JDict) (k : String)
    (h1 : k ≠ "record_date") (h2 : k ≠ "license_date") (h3 : k ≠ "expiry_date") :
    dictGet (parse_dates n) k = dictGet n k := by
  unfold parse_dates
  simp only [List.foldl_cons, List.foldl_nil]
  rw [dictGet_parseDateField_ne _ _ _ h3, dictGet_parseDateField_ne _ _ _ h2,
      dictGet_parseDateField_ne _ _ _ h1]

theorem dictGet_clean_phone_ne (n : JDict) (k : String) (h : k ≠ "phone") :
    dictGet (clean_phone n) k = dictGet n k := by
  unfold clean_phone
  dsimp only
  split_ifs
  · exact dictGet_dictSet_ne _ _ _ _ h
  · exact dictGet_dictSet_ne _ _ _ _ h
  · rfl
  · rfl

theorem dictGet_standardize_state_ne (n n2 : JDict) (hss : standardize_state n = .ok n2)
    (k : String) (h : k ≠ "state") : dictGet n2 k = dictGet n k := by
  unfold standardize_state at hss
  split at hss
  · split_ifs at hss
    · split at hss
      · injection hss with e
        subst e
        exact dictGet_dictSet_ne _ _ _ _ h
      · injection hss with e
        subst e
        rfl
    · injection hss with e
      subst e
      exact dictGet_dictSet_ne _ _ _ _ h
    · injection hss with e
      subst e
      rfl
  · split_ifs at hss
    injection hss with e
    subst e
    rfl
  · split_ifs at hss
    injection hss with e
    subst e
    rfl
  · split_ifs at hss
    injection hss with e
    subst e
    rfl

theorem dictGet_clean_zip_ne (n : JDict) (k : String) (h : k ≠ "zip_code") :
    dictGet (clean_zip n) k = dictGet n k := by
  unfold clean_zip
  dsimp only
  split_ifs
  · exact dictGet_dictSet_ne _ _ _ _ h
  · exact dictGet_dictSet_ne _ _ _ _ h
  · rfl
  · rfl

theorem dictGet_clean_website_ne (n : JDict) (k : String) (h : k ≠ "website") :
    dictGet (clean_website n) k = dictGet n k := by
  unfold clean_website
  split
  · dsimp only
    split_ifs
    · exact dictGet_dictSet_ne _ _ _ _ h
    · rfl
    · rfl
  · rfl

/-- C1: the range/zero half of the coordinate invariant holds for every
record `normalize` returns: latitude is absent (`None`) or a number in
`[-90, 90]`, longitude is absent or a number in `[-180, 180]`, and the
two are never both exactly `0`.  (The both-present-or-both-absent half is
false — see the counterexample.) -/
theorem c1_coordinate_invariant (src : DataSource) (raw : JDict) (n : JDict)
    (h : normalize src raw = .ok n) :
    validCoordVal 90 (dictGet n "latitude") ∧
    validCoordVal 180 (dictGet n "longitude") ∧
    ¬(dictGet n "latitude" = .num 0 ∧ dictGet n "longitude" = .num 0) := by
  unfold normalize at h
  dsimp only at h
  set n3 := parse_coordinates (applyDefaults src (applyDirectMatching raw
    (applyFieldMapping src.field_mapping raw []))) raw with hn3
  cases hss : standardize_state (clean_phone (parse_dates n3)) with
  | error e =>
      rw [hss] at h
      exact Except.noConfusion h
  | ok n5 =>
      rw [hss] at h
      dsimp only at h
      injection h with hn
      subst hn
      have glat : dictGet (clean_website (clean_zip n5)) "latitude" = dictGet n3 "latitude" := by
        rw [dictGet_clean_website_ne _ _ (by decide),
            dictGet_clean_zip_ne _ _ (by decide),
            dictGet_standardize_state_ne _ _ hss _ (by decide),
            dictGet_clean_phone_ne _ _ (by decide),
            dictGet_parse_dates_ne _ _ (by decide) (by decide) (by decide)]
      have glon : dictGet (clean_website (clean_zip n5)) "longitude" = dictGet n3 "longitude" := by
        rw [dictGet_clean_website_ne _ _ (by decide),
            dictGet_clean_zip_ne _ _ (by decide),
            dictGet_standardize_state_ne _ _ hss _ (by decide),
            dictGet_clean_phone_ne _ _ (by decide),
            dictGet_parse_dates_ne _ _ (by decide) (by decide) (by decide)]
      rw [glat, glon, hn3]
      exact parse_coordinates_valid _ raw

set_option maxRecDepth 100000 in
/-- C1 counterexample to the both-or-neither half: a raw record carrying
only a valid latitude normalizes with that latitude present and
`longitude = None` — exactly one coordinate present. -/
theorem c1_partial_coordinate_counterexample :
    ∃ n : JDict, normalize {} [("latitude", JVal.num 45)] = .ok n ∧
      dictGet n "latitude" = JVal.num 45 ∧ dictGet n "longitude" = JVal.null := by
  refine ⟨(normalize {} [("latitude", JVal.num 45)]).toOption.getD [], ?_, ?_, ?_⟩ <;> rfl

set_option maxRecDepth 100000 in
/-- Witness: `c1_coordinate_invariant` applied to a concrete successful
normalization. -/
theorem c1_coordinate_invariant_witness :
    validCoordVal 90 (dictGet ((normalize {} [("latitude", JVal.num 45)]).toOption.getD [])
      "latitude") ∧
    validCoordVal 180 (dictGet ((normalize {} [("latitude", JVal.num 45)]).toOption.getD [])
      "longitude") ∧
    ¬(dictGet ((normalize {} [("latitude", JVal.num 45)]).toOption.getD []) "latitude"
        = JVal.num 0 ∧
      dictGet ((normalize {} [("latitude", JVal.num 45)]).toOption.getD []) "longitude"
        = JVal.num 0) :=
  c1_coordinate_invariant {} [("latitude", JVal.num 45)] _ rfl

end Cannabis
